import Mathlib

/-!
Shallow embedding of the OpenBCI_Radios packet protocol
(src/OpenBCI_Radios.cpp) and verification of its specification claims.

Modelling conventions:
* C `char` on the target (ARM, unsigned char) is modelled as `Nat`,
  wrapped mod 256 where the code itself wraps; C `int`/`uint32_t`
  counters are modelled as `Int` resp. `Nat` with explicit wrap-around
  where the code can overflow.
* C byte arrays / pointers are modelled as total functions `Int → Nat`
  (memory junk outside the written range), mirroring C pointer
  arithmetic; a null pointer is an `Option` `none`.
* Serial and radio I/O performed by a function is returned as a list of
  `Event`s in emission order; `millis()` / `micros()` are passed in as
  `now` / `nowUs` parameters; the external flash-persistence capability
  result codes are passed in as oracle parameters.
-/

namespace OpenBCIRadios

/-! ## Definitions -/

/-- Constant from the source: a radio packet holds at most 32 bytes. -/
def OPENBCI_MAX_PACKET_SIZE_BYTES : Int := 32

/-- Constant from the source: 31 payload bytes per packet (byte 0 is the byteId). -/
def OPENBCI_MAX_DATA_BYTES_IN_PACKET : Int := 31

/-- Modelled from the spec: the header file is not in src; the Buffer
holds N packets where "N is a small compile-time constant, e.g. 4". -/
def OPENBCI_MAX_NUMBER_OF_BUFFERS : Int := 4

/-- Modelled from the spec: the inbound radio byte buffer has a fixed
capacity; the concrete value is not given in src and no claim depends on it. -/
def OPENBCI_BUFFER_LENGTH : Int := 500

/-- Constant from the source: the stream-frame head byte is the character A. -/
def OPENBCI_STREAM_PACKET_HEAD : Nat := 0x41

/-- Modelled from the spec: the fixed start byte emitted before a stream
packet's payload on the Host's local transport; wire value not in src. -/
def OPENBCI_STREAM_BYTE_START : Nat := 0xA0

/-- Modelled from the spec: local-transport data-quiet timeout in ms; the
concrete value is not in src and no claim depends on it. -/
def OPENBCI_MAX_SERIAL_TIMEOUT_MS : Nat := 3

/-- Modelled from the spec: the fixed short delay (100 microseconds)
between the stream tail byte and dispatch. -/
def OPENBCI_SERIAL_TIMEOUT_uS : Nat := 100

/-- Constant from the source comments: radio channels are restricted to 0..25. -/
def RFDUINOGZLL_CHANNEL_LIMIT_UPPER : Nat := 25

/-- Modelled from the spec: 1-byte control code wire values are not in
src; any fixed distinct byte values work, the code only compares them. -/
def ORPM_PACKET_BAD_CHECK_SUM : Nat := 1

/-- Modelled from the spec: see ORPM_PACKET_BAD_CHECK_SUM. -/
def ORPM_PACKET_MISSED : Nat := 2

/-- Modelled from the spec: see ORPM_PACKET_BAD_CHECK_SUM. -/
def ORPM_CHANGE_CHANNEL_HOST_REQUEST : Nat := 3

/-- Modelled from the spec: see ORPM_PACKET_BAD_CHECK_SUM. -/
def ORPM_CHANGE_CHANNEL_DEVICE_READY : Nat := 4

/-- Modelled from the spec: see ORPM_PACKET_BAD_CHECK_SUM. -/
def ORPM_INVALID_CODE_RECEIVED : Nat := 5

/-- Modelled from the spec: see ORPM_PACKET_BAD_CHECK_SUM. -/
def ORPM_DEVICE_SERIAL_OVERFLOW : Nat := 6

/-- Modelled from the spec: Host local-transport command code values are
not in src; fixed distinct bytes. -/
def OPENBCI_HOST_TIME_SYNC : Nat := 0x3C

/-- Modelled from the spec: see OPENBCI_HOST_TIME_SYNC. -/
def OPENBCI_HOST_TIME_SYNC_ACK : Nat := 0x3E

/-- Modelled from the spec: see OPENBCI_HOST_TIME_SYNC. -/
def OPENBCI_HOST_CHANNEL_QUERY : Nat := 0x51

/-- Modelled from the spec: see OPENBCI_HOST_TIME_SYNC. -/
def OPENBCI_HOST_CHANNEL_CHANGE : Nat := 0x52

/-- Modelled from the spec: see OPENBCI_HOST_TIME_SYNC. -/
def OPENBCI_HOST_CHANNEL_CHANGE_SUCCESS : Nat := 0x53

/-- Modelled from the spec: see OPENBCI_HOST_TIME_SYNC. -/
def OPENBCI_HOST_CHANNEL_CHANGE_INVALID : Nat := 0x54

/-! ## ByteId / checksum codec (lines 888-1002, 1031-1040) -/

/-- Sum of the bytes read from memory `f` at offsets `0..n-1`. -/
def sumBytes (f : Int → Nat) : Nat → Nat
  | 0 => 0
  | n + 1 => sumBytes f n + f n

/-- Number of body executions of the do-while loop in `checkSumMake`:
the loop decrements the 32-bit `int` length after each byte and stops
when it reaches 0, so a positive length runs `length` times while a
non-positive length wraps around and runs `2^32 + length` times. -/
def checkSumIters (length : Int) : Nat :=
  let n : Nat := (length % (4294967296 : Int)).toNat
  if n = 0 then 4294967296 else n

/-- Translation of `checkSumMake` (line 983): null data returns 0;
otherwise a do-while loop sums `data[0], data[1], ...` into a 32-bit
unsigned `sum` for `checkSumIters length` iterations.  Finally
`sum = -sum` (32-bit unsigned negation) and the low 3 bits are returned. -/
def checkSumMake (data : Option (Int → Nat)) (length : Int) : Nat :=
  match data with
  | none => 0x00
  | some f =>
    let sum : Nat := sumBytes f (checkSumIters length) % 4294967296
    let negSum : Nat := (4294967296 - sum) % 4294967296
    negSum &&& 0x07

/-- Translation of `byteIdGetCheckSum` (line 893): low 3 bits of the byteId. -/
def byteIdGetCheckSum (byteId : Nat) : Nat :=
  byteId &&& 0x07

/-- Translation of `byteIdGetIsStream` (line 902): `byteId > 0x7F`
(char is unsigned on the target). -/
def byteIdGetIsStream (byteId : Nat) : Bool :=
  decide (0x7F < byteId)

/-- Translation of `byteIdGetPacketNumber` (line 911): bits 6..3 as an int. -/
def byteIdGetPacketNumber (byteId : Nat) : Int :=
  ((byteId &&& 0x78) >>> 3 : Nat)

/-- Translation of `byteIdGetStreamPacketType` (line 920): bits 6..3 as a byte. -/
def byteIdGetStreamPacketType (byteId : Nat) : Nat :=
  (byteId &&& 0x78) >>> 3

/-- Translation of `byteIdMake` (line 937): bit 7 is the stream flag,
bits 6..3 are `packetNumber & 0x0F` (two's-complement low bits, i.e.
`emod 16`), bits 2..0 the checksum of the data. -/
def byteIdMake (isStreamPacket : Bool) (packetNumber : Int)
    (data : Option (Int → Nat)) (length : Int) : Nat :=
  let output : Nat := 0x00
  let output : Nat := if isStreamPacket then output ||| 0x80 else output
  let output : Nat := output ||| ((packetNumber % 16).toNat <<< 3)
  let output : Nat := output ||| checkSumMake data length
  output

/-- Translation of `checkSumsAreEqual` (line 968): compares the checksum
embedded in byte 0 against a checksum freshly computed over bytes
`1..len-1`. -/
def checkSumsAreEqual (data : Int → Nat) (len : Int) : Bool :=
  byteIdGetCheckSum (data 0) == checkSumMake (some (fun i => data (1 + i))) (len - 1)

/-- Translation of `outputGetStopByteFromByteId` (line 1038):
stream packet type with top nibble 1100. -/
def outputGetStopByteFromByteId (byteId : Nat) : Nat :=
  byteIdGetStreamPacketType byteId ||| 0xC0

/-- C pointer to a byte buffer, modelled as the list of received bytes:
in-range reads are list entries, out-of-range reads are memory junk
(modelled as 0). -/
def memOfList (l : List Nat) : Int → Nat :=
  fun i => if 0 ≤ i then l.getD i.toNat 0 else 0

/-- List form of `checkSumsAreEqual`, for packets given as byte lists. -/
def checkSumsAreEqualL (packet : List Nat) (len : Int) : Bool :=
  checkSumsAreEqual (memOfList packet) len

/-- List form of `byteIdMake`, for payloads given as byte lists. -/
def byteIdMakeL (isStreamPacket : Bool) (packetNumber : Int) (l : List Nat) : Nat :=
  byteIdMake isStreamPacket packetNumber (some (memOfList l)) l.length

/-- Memory with a single 1 at offset 0, used to evaluate the checksum's
zero-length behaviour. -/
def oneAtZero : Int → Nat := fun i => if i = 0 then 1 else 0

/-! ## Data model (spec section 3; struct fields used by src) -/

/-- One fixed-size packet: a 32-byte array (modelled as memory) plus read
and write cursors. -/
structure Packet where
  data : Int → Nat
  positionRead : Int
  positionWrite : Int

/-- A Buffer: an array of N packets (modelled as memory, mirroring C
pointer arithmetic) with send counters. -/
structure Buffer where
  packetBuffer : Int → Packet
  numberOfPacketsToSend : Int
  numberOfPacketsSent : Int

/-- The stream-frame detector's buffer and state record. -/
structure StreamPacketBuffer where
  data : Int → Nat
  typeByte : Nat
  readyForLaunch : Bool
  gotHead : Bool
  bytesIn : Int

/-- The mutable state of `OpenBCI_Radios_Class` that the embedded
functions read or write. -/
structure RadioState where
  isHost : Bool
  isDevice : Bool
  verbosePrintouts : Bool
  debugMode : Bool
  radioChannel : Nat
  previousRadioChannel : Nat
  flashChannel : Nat
  gzllChannel : Nat
  isWaitingForNewChannelNumber : Bool
  isWaitingForNewChannelNumberConfirmation : Bool
  bufferSerial : Buffer
  currentPacketBufferSerial : Option Int
  bufferStreamPackets : Buffer
  currentPacketBufferStreamPacket : Option Int
  streamPacketBuffer : StreamPacketBuffer
  bufferRadio : Int → Nat
  bufferPositionReadRadio : Int
  bufferPositionWriteRadio : Int
  bufferPacketsReceived : Int
  bufferPacketsToReceive : Int
  isTheDevicesRadioBufferFilledWithAllThePacketsFromTheHost : Bool
  isTheHostsRadioBufferFilledWithAllThePacketsFromTheDevice : Bool
  previousPacketNumber : Int
  lastTimeHostHeardFromDevice : Nat
  lastTimeNewSerialDataWasAvailable : Nat
  timeOfLastPoll : Nat
  timeWeGot0xFXFromPic : Nat

/-- Observable I/O performed by a function, in emission order. -/
inductive Event where
  | radioToHost (bytes : List Nat)
  | radioToDevice (bytes : List Nat)
  | serialWrite (b : Nat)
  | serialPrint (s : String)
  deriving DecidableEq

/-- Write one byte into a byte-array memory. -/
def writeMem (f : Int → Nat) (i : Int) (v : Nat) : Int → Nat :=
  fun j => if j = i then v else f j

/-- Write one packet into a packet-array memory. -/
def writePacket (f : Int → Packet) (i : Int) (p : Packet) : Int → Packet :=
  fun j => if j = i then p else f j

/-- Target of a C null-pointer dereference; the code never reaches such a
dereference from the states the theorems start in, see `bufferSerialFetch`. -/
def nullPacket : Packet :=
  { data := fun _ => 0, positionRead := 0, positionWrite := 0 }

/-- The packet the serial ingestion cursor points at. -/
def derefSerial (st : RadioState) : Packet :=
  match st.currentPacketBufferSerial with
  | some i => st.bufferSerial.packetBuffer i
  | none => nullPacket

/-- The packet the stream-packet cursor points at. -/
def derefStream (st : RadioState) : Packet :=
  match st.currentPacketBufferStreamPacket with
  | some i => st.bufferStreamPackets.packetBuffer i
  | none => nullPacket

/-- The bytes a radio send of `p.data` with length `p.positionWrite` transmits. -/
def packetBytes (p : Packet) : List Nat :=
  (List.range p.positionWrite.toNat).map (fun j => p.data (j : Int))

/-- Verbose-print helper: `Serial.print` lines guarded by `verbosePrintouts`. -/
def vp (st : RadioState) (s : String) : List Event :=
  if st.verbosePrintouts then [Event.serialPrint s] else []

/-! ## Buffer cleaning (lines 669-765) -/

/-- Translation of `bufferCleanChar` (line 669). -/
def bufferCleanChar (buffer : Int → Nat) (bufferLength : Int) : Int → Nat :=
  fun i => if 0 ≤ i ∧ i < bufferLength then 0 else buffer i

/-- Translation of `bufferCleanPacketBuffer` (line 679): reset the first
`numberOfPackets` packets' cursors, write position starts at 1. -/
def bufferCleanPacketBuffer (packetBuffer : Int → Packet) (numberOfPackets : Int) :
    Int → Packet :=
  fun i => if 0 ≤ i ∧ i < numberOfPackets then
    { packetBuffer i with positionRead := 0, positionWrite := 1 }
  else packetBuffer i

/-- Translation of `bufferCleanCompletePacketBuffer` (line 690): write
position reset to 0. -/
def bufferCleanCompletePacketBuffer (packetBuffer : Int → Packet) (numberOfPackets : Int) :
    Int → Packet :=
  fun i => if 0 ≤ i ∧ i < numberOfPackets then
    { packetBuffer i with positionRead := 0, positionWrite := 0 }
  else packetBuffer i

/-- Translation of `bufferCleanBuffer` (line 701). -/
def bufferCleanBuffer (buffer : Buffer) (numberOfPacketsToClean : Int) : Buffer :=
  { packetBuffer := bufferCleanPacketBuffer buffer.packetBuffer numberOfPacketsToClean,
    numberOfPacketsToSend := 0,
    numberOfPacketsSent := 0 }

/-- Translation of `bufferCleanCompleteBuffer` (line 711). -/
def bufferCleanCompleteBuffer (buffer : Buffer) (numberOfPacketsToClean : Int) : Buffer :=
  { packetBuffer := bufferCleanCompletePacketBuffer buffer.packetBuffer numberOfPacketsToClean,
    numberOfPacketsToSend := 0,
    numberOfPacketsSent := 0 }

/-- Translation of `bufferCleanSerial` (line 739): clean the buffer,
point the cursor back at packet 0, reset `previousPacketNumber`. -/
def bufferCleanSerial (st : RadioState) (numberOfPacketsToClean : Int) : RadioState :=
  { st with
    bufferSerial := bufferCleanBuffer st.bufferSerial numberOfPacketsToClean,
    currentPacketBufferSerial := some 0,
    previousPacketNumber := 0 }

/-- Translation of `bufferCleanStreamPackets` (line 753). -/
def bufferCleanStreamPackets (st : RadioState) (numberOfPacketsToClean : Int) : RadioState :=
  { st with
    bufferStreamPackets := bufferCleanCompleteBuffer st.bufferStreamPackets numberOfPacketsToClean,
    currentPacketBufferStreamPacket := some 0 }

/-- Translation of `bufferResetStreamPacketBuffer` (line 761). -/
def bufferResetStreamPacketBuffer (st : RadioState) : RadioState :=
  { st with
    streamPacketBuffer :=
      { st.streamPacketBuffer with gotHead := false, bytesIn := 0, readyForLaunch := false } }

/-! ## Stream-frame detector (processCharForStreamPacket, line 513) -/

/-- Translation of `processCharForStreamPacket` (line 513): the per-byte
stream-frame state machine. `nowUs` models `micros()`. -/
def processCharForStreamPacket (st : RadioState) (newChar : Nat) (nowUs : Nat) : RadioState :=
  if st.streamPacketBuffer.readyForLaunch then
    bufferResetStreamPacketBuffer st
  else if st.streamPacketBuffer.gotHead then
    let spb := st.streamPacketBuffer
    let spb := { spb with
      data := writeMem spb.data spb.bytesIn newChar,
      bytesIn := spb.bytesIn + 1 }
    if spb.bytesIn = OPENBCI_MAX_PACKET_SIZE_BYTES + 1 then
      if newChar &&& 0xF0 = 0xF0 then
        { st with
          streamPacketBuffer := { spb with typeByte := newChar, readyForLaunch := true },
          timeWeGot0xFXFromPic := nowUs }
      else if newChar = OPENBCI_STREAM_PACKET_HEAD then
        { st with streamPacketBuffer := { spb with bytesIn := 1 } }
      else
        { st with streamPacketBuffer := { spb with gotHead := false } }
    else
      { st with streamPacketBuffer := spb }
  else
    if newChar = OPENBCI_STREAM_PACKET_HEAD then
      { st with streamPacketBuffer :=
        { st.streamPacketBuffer with bytesIn := 1, gotHead := true } }
    else st

/-! ## Serial ingestion (bufferSerialFetch, line 771) -/

/-- Overflow handling inside the fetch loop (lines 793-809): null the
cursor, clean the serial buffer (which re-points the cursor at packet 0),
and emit the role's overflow signal. -/
def fetchOverflow (st : RadioState) : RadioState × List Event :=
  let st := { st with currentPacketBufferSerial := none }
  let st := bufferCleanSerial st OPENBCI_MAX_NUMBER_OF_BUFFERS
  if st.isDevice then
    (st, [Event.radioToHost [ORPM_DEVICE_SERIAL_OVERFLOW], Event.serialPrint "v"])
  else if st.isHost then
    (st, [Event.serialPrint "Input too large!$$$"])
  else (st, [])

/-- Wrap/overflow check at the top of the fetch loop body (lines 789-814):
if the current packet's write position has reached 32, advance to the
next packet slot, or take the overflow path when slots run out. -/
def fetchStepWrap (st : RadioState) : RadioState × List Event :=
  if (derefSerial st).positionWrite ≥ OPENBCI_MAX_PACKET_SIZE_BYTES then
    let st := { st with bufferSerial :=
      { st.bufferSerial with
        numberOfPacketsToSend := st.bufferSerial.numberOfPacketsToSend + 1 } }
    if st.bufferSerial.numberOfPacketsToSend ≥ OPENBCI_MAX_NUMBER_OF_BUFFERS then
      fetchOverflow st
    else
      ({ st with currentPacketBufferSerial := st.currentPacketBufferSerial.map (· + 1) }, [])
  else (st, [])

/-- Byte-store part of the fetch loop body (lines 817-838): write the byte
through the cursor if it is non-null (feeding the stream detector on the
Device), else read-and-discard it. -/
def fetchStepStore (st : RadioState) (c : Nat) (nowUs : Nat) : RadioState × List Event :=
  match st.currentPacketBufferSerial with
  | some i =>
    let p := st.bufferSerial.packetBuffer i
    let p := { p with
      data := writeMem p.data p.positionWrite c,
      positionWrite := p.positionWrite + 1 }
    let st := { st with bufferSerial :=
      { st.bufferSerial with packetBuffer := writePacket st.bufferSerial.packetBuffer i p } }
    let st := if st.isDevice then processCharForStreamPacket st c nowUs else st
    (st, ([] : List Event))
  | none =>
    (st, if st.verbosePrintouts then [Event.serialPrint ("BO:" ++ toString c ++ "\n")] else [])

/-- Timer refreshes at the bottom of the fetch loop body (lines 840-845). -/
def fetchStepTimers (st : RadioState) (now : Nat) : RadioState :=
  let st := if st.isDevice then { st with timeOfLastPoll := now } else st
  { st with lastTimeNewSerialDataWasAvailable := now }

/-- One iteration of the `while (Serial.available())` loop of
`bufferSerialFetch` (lines 786-846) consuming byte `c`. -/
def fetchStep (st : RadioState) (c : Nat) (now nowUs : Nat) : RadioState × List Event :=
  let r1 := fetchStepWrap st
  let r2 := fetchStepStore r1.1 c nowUs
  (fetchStepTimers r2.1 now, r1.2 ++ r2.2)

/-- The fetch loop over the bytes available on the local transport. -/
def bufferSerialFetchLoop (st : RadioState) (input : List Nat) (now nowUs : Nat) :
    RadioState × List Event :=
  match input with
  | [] => (st, [])
  | c :: rest =>
    let r1 := fetchStep st c now nowUs
    let r2 := bufferSerialFetchLoop r1.1 rest now nowUs
    (r2.1, r1.2 ++ r2.2)

/-- Translation of `bufferSerialFetch` (line 771): bump
`numberOfPacketsToSend` to 1 if it was 0, then drain all available bytes. -/
def bufferSerialFetch (st : RadioState) (input : List Nat) (now nowUs : Nat) :
    RadioState × List Event :=
  let st := if st.bufferSerial.numberOfPacketsToSend = 0 then
    { st with bufferSerial := { st.bufferSerial with numberOfPacketsToSend := 1 } }
  else st
  bufferSerialFetchLoop st input now nowUs

/-! ## Branch equations for the fetch loop body -/

/-- Overflow signal events, by role. -/
def overflowSignal (dv hs : Bool) : List Event :=
  if dv then [Event.radioToHost [ORPM_DEVICE_SERIAL_OVERFLOW], Event.serialPrint "v"]
  else if hs then [Event.serialPrint "Input too large!$$$"]
  else []

/-- State after the byte-store part when the cursor is `some q`. -/
def fetchWrite (st : RadioState) (q : Int) (c : Nat) (nowUs : Nat) : RadioState :=
  let p := st.bufferSerial.packetBuffer q
  let p := { p with
    data := writeMem p.data p.positionWrite c,
    positionWrite := p.positionWrite + 1 }
  let st := { st with bufferSerial :=
    { st.bufferSerial with packetBuffer := writePacket st.bufferSerial.packetBuffer q p } }
  if st.isDevice then processCharForStreamPacket st c nowUs else st

/-- The packet that the byte-store part writes at cursor index `q`. -/
def writtenPacket (st : RadioState) (q : Int) (c : Nat) : Packet :=
  { (st.bufferSerial.packetBuffer q) with
    data := writeMem (st.bufferSerial.packetBuffer q).data
      (st.bufferSerial.packetBuffer q).positionWrite c,
    positionWrite := (st.bufferSerial.packetBuffer q).positionWrite + 1 }

/-! ## Ingestion invariants (claims C1, C3, C6) -/

/-- The Buffer invariant from the spec:
`0 ≤ packetsSent ≤ packetsToSend ≤ N`. -/
def bufferInvariant (b : Buffer) : Prop :=
  0 ≤ b.numberOfPacketsSent ∧
  b.numberOfPacketsSent ≤ b.numberOfPacketsToSend ∧
  b.numberOfPacketsToSend ≤ OPENBCI_MAX_NUMBER_OF_BUFFERS

instance (b : Buffer) : Decidable (bufferInvariant b) := by
  unfold bufferInvariant
  infer_instance

/-- A clean serial buffer, as left by `bufferCleanSerial(N)`. -/
def serialClean (st : RadioState) : Prop :=
  st.bufferSerial.numberOfPacketsToSend = 0 ∧
  st.bufferSerial.numberOfPacketsSent = 0 ∧
  st.currentPacketBufferSerial = some 0 ∧
  (st.bufferSerial.packetBuffer 0).positionWrite = 1 ∧
  (st.bufferSerial.packetBuffer 1).positionWrite = 1 ∧
  (st.bufferSerial.packetBuffer 2).positionWrite = 1 ∧
  (st.bufferSerial.packetBuffer 3).positionWrite = 1

/-- Invariant of the fetch loop before the overflow point: after `j`
ingested bytes of `full` (from a clean buffer), packets `0..q-1` are full
(31 payload bytes each), packet `q` holds the remainder, later packets
are untouched, and all stored payload bytes coincide with `full`.
Here `q = (j-1)/31`. -/
def FetchInv (full : List Nat) (j : Nat) (st : RadioState) : Prop :=
  st.bufferSerial.numberOfPacketsToSend = ((j - 1) / 31 : Nat) + 1 ∧
  st.bufferSerial.numberOfPacketsSent = 0 ∧
  st.currentPacketBufferSerial = some (((j - 1) / 31 : Nat) : Int) ∧
  (st.bufferSerial.packetBuffer ((j - 1) / 31 : Nat)).positionWrite
      = (j : Int) - 31 * ((j - 1) / 31 : Nat) + 1 ∧
  (∀ i : Nat, i < (j - 1) / 31 →
    (st.bufferSerial.packetBuffer (i : Int)).positionWrite = 32) ∧
  (∀ i : Nat, (j - 1) / 31 < i → i < 4 →
    (st.bufferSerial.packetBuffer (i : Int)).positionWrite = 1) ∧
  (∀ i t : Nat, i ≤ (j - 1) / 31 → 1 ≤ t →
    (t : Int) < (st.bufferSerial.packetBuffer (i : Int)).positionWrite →
    (st.bufferSerial.packetBuffer (i : Int)).data (t : Int) = full.getD (31 * i + t - 1) 0)

/-- Invariant of the fetch loop after the overflow point: `m ≥ 1` bytes
have been re-ingested into the freshly cleaned packet 0 and the counters
stay at zero. -/
def FetchInv2 (m : Nat) (st : RadioState) : Prop :=
  st.bufferSerial.numberOfPacketsToSend = 0 ∧
  st.bufferSerial.numberOfPacketsSent = 0 ∧
  st.currentPacketBufferSerial = some 0 ∧
  (st.bufferSerial.packetBuffer 0).positionWrite = (m : Int) + 1

/-- Combined fetch-loop invariant: before byte 94 we are in phase 1,
from byte 94 to byte 124 in phase 2; the role flags stay fixed. -/
def FetchInvA (dv hs : Bool) (full : List Nat) (j : Nat) (st : RadioState) : Prop :=
  st.isDevice = dv ∧ st.isHost = hs ∧
  ((j ≤ 93 ∧ FetchInv full j st) ∨ (94 ≤ j ∧ j ≤ 124 ∧ FetchInv2 (j - 93) st))

/-- Concatenation of the payload bytes (positions `1..positionWrite-1`) of
the populated packets in packet order. -/
def payloadBytes (st : RadioState) : List Nat :=
  (List.range st.bufferSerial.numberOfPacketsToSend.toNat).flatMap
    (fun (i : Nat) =>
      (List.range ((st.bufferSerial.packetBuffer (i : Int)).positionWrite - 1).toNat).map
        (fun (t : Nat) => (st.bufferSerial.packetBuffer (i : Int)).data ((t : Int) + 1)))

/-- Recogniser for the overflow signal events (Device radio code or Host
local-transport report). -/
def isOverflowSignal (e : Event) : Bool :=
  decide (e = Event.radioToHost [ORPM_DEVICE_SERIAL_OVERFLOW]) ||
  decide (e = Event.serialPrint "Input too large!$$$")

/-! ## Concrete states for witnesses and counterexamples -/

/-- A packet as left by `bufferCleanPacketBuffer`: zeroed data, cursors reset. -/
def zeroPacket : Packet :=
  { data := fun _ => 0, positionRead := 0, positionWrite := 1 }

/-- A concrete freshly-initialised state (Device when `dv`, else Host),
with both buffers clean. -/
def mkCleanState (dv : Bool) : RadioState :=
  { isHost := !dv
    isDevice := dv
    verbosePrintouts := true
    debugMode := true
    radioChannel := 25
    previousRadioChannel := 25
    flashChannel := 25
    gzllChannel := 25
    isWaitingForNewChannelNumber := false
    isWaitingForNewChannelNumberConfirmation := false
    bufferSerial :=
      { packetBuffer := fun _ => zeroPacket, numberOfPacketsToSend := 0, numberOfPacketsSent := 0 }
    currentPacketBufferSerial := some 0
    bufferStreamPackets :=
      { packetBuffer := fun _ => zeroPacket, numberOfPacketsToSend := 0, numberOfPacketsSent := 0 }
    currentPacketBufferStreamPacket := some 0
    streamPacketBuffer :=
      { data := fun _ => 0, typeByte := 0, readyForLaunch := false, gotHead := false, bytesIn := 0 }
    bufferRadio := fun _ => 0
    bufferPositionReadRadio := 0
    bufferPositionWriteRadio := 0
    bufferPacketsReceived := 0
    bufferPacketsToReceive := 0
    isTheDevicesRadioBufferFilledWithAllThePacketsFromTheHost := false
    isTheHostsRadioBufferFilledWithAllThePacketsFromTheDevice := false
    previousPacketNumber := 0
    lastTimeHostHeardFromDevice := 0
    lastTimeNewSerialDataWasAvailable := 0
    timeOfLastPoll := 0
    timeWeGot0xFXFromPic := 0 }

instance (st : RadioState) : Decidable (serialClean st) := by
  unfold serialClean
  infer_instance

/-! ## Radio receive handler (RFduinoGZLL_onReceive, line 1050) -/

/-- Translation of `pollRefresh` (line 1027). -/
def pollRefresh (st : RadioState) (now : Nat) : RadioState :=
  { st with timeOfLastPoll := now }

/-- Translation of `pollHost` (line 1008): a zero-length send to the Host
followed by a poll refresh. -/
def pollHost (st : RadioState) (now : Nat) : RadioState × List Event :=
  ({ st with timeOfLastPoll := now }, [Event.radioToHost []])

/-- Translation of `theLastTimeNewSerialDataWasAvailableWasLongEnough`
(line 422). -/
def theLastTimeNewSerialDataWasAvailableWasLongEnough (st : RadioState) (now : Nat) : Bool :=
  decide (now > st.lastTimeNewSerialDataWasAvailable + OPENBCI_MAX_SERIAL_TIMEOUT_MS)

/-- Translation of `setChannelNumber` (line 211): clamp the channel,
erase the flash page, write the channel.  `flashPageErase` and
`flashWrite` are external capabilities; their result codes are supplied
as the oracle parameters `eraseRc` and `writeRc`.  An erased page reads
back 0xFFFFFFFF.  For a `writeRc` outside 0..2 the C function falls off
the end without returning; modelled as failure. -/
def setChannelNumber (st : RadioState) (channelNumber : Nat) (eraseRc writeRc : Int) :
    RadioState × Bool × List Event :=
  let ch := if channelNumber > RFDUINOGZLL_CHANNEL_LIMIT_UPPER then
    RFDUINOGZLL_CHANNEL_LIMIT_UPPER else channelNumber
  if eraseRc = 1 then
    (st, false,
     if st.isHost then [Event.serialPrint "Error - the flash page is reserved$$$\n"] else [])
  else if eraseRc = 2 then
    (st, false,
     if st.isHost then [Event.serialPrint "Error - the flash page is used by the sketch$$$\n"]
     else [])
  else
    let st := { st with flashChannel := 0xFFFFFFFF }
    if writeRc = 0 then
      ({ st with flashChannel := ch }, true, [Event.serialPrint "Channel Number Set$$$\n"])
    else if writeRc = 1 then
      (st, false,
       if st.isHost then [Event.serialPrint "Error - the flash page is reserved$$$\n"] else [])
    else if writeRc = 2 then
      (st, false,
       if st.isHost then [Event.serialPrint "Error - the flash page is used by the sketch$$$\n"]
       else [])
    else (st, false, [])

/-- One iteration of the append loop in the `len > 1` branch
(lines 1229-1234): append a byte to `bufferRadio`, silently dropping it
at capacity. -/
def bufferRadioAddByte (st : RadioState) (b : Nat) : RadioState :=
  if st.bufferPositionWriteRadio < OPENBCI_BUFFER_LENGTH then
    { st with
      bufferRadio := writeMem st.bufferRadio st.bufferPositionWriteRadio b,
      bufferPositionWriteRadio := st.bufferPositionWriteRadio + 1 }
  else st

/-- The append loop of lines 1229-1234: bytes `1..len-1` of the received
packet go into `bufferRadio`. -/
def bufferRadioAdd (st : RadioState) (mem : Int → Nat) (len : Int) : RadioState :=
  (List.range (len - 1).toNat).foldl
    (fun s k => bufferRadioAddByte s (mem (1 + (k : Int)))) st

/-- Wrap/overflow check of the `bufferAddStreamPacket` loop body
(lines 863-876).  A null cursor in C would be dereferenced by the wrap
check and crash; modelled through `derefStream` as a junk packet that
never wraps, so the byte is then dropped by the explicit null check of
line 878. -/
def bufferAddStreamPacketWrap (st : RadioState) : RadioState :=
  if (derefStream st).positionWrite ≥ OPENBCI_MAX_PACKET_SIZE_BYTES then
    let st := { st with bufferStreamPackets :=
      { st.bufferStreamPackets with
        numberOfPacketsToSend := st.bufferStreamPackets.numberOfPacketsToSend + 1 } }
    if st.bufferStreamPackets.numberOfPacketsToSend ≥ OPENBCI_MAX_NUMBER_OF_BUFFERS then
      { st with currentPacketBufferStreamPacket := none }
    else
      { st with currentPacketBufferStreamPacket :=
          st.currentPacketBufferStreamPacket.map (· + 1) }
  else st

/-- One iteration of the loop of `bufferAddStreamPacket` (lines 862-885). -/
def bufferAddStreamPacketByte (st : RadioState) (b : Nat) : RadioState :=
  let st := bufferAddStreamPacketWrap st
  match st.currentPacketBufferStreamPacket with
  | some i =>
    let p := st.bufferStreamPackets.packetBuffer i
    let p := { p with
      data := writeMem p.data p.positionWrite b,
      positionWrite := p.positionWrite + 1 }
    { st with bufferStreamPackets :=
      { st.bufferStreamPackets with
        packetBuffer := writePacket st.bufferStreamPackets.packetBuffer i p } }
  | none => st

/-- Translation of `bufferAddStreamPacket` (line 855). -/
def bufferAddStreamPacket (st : RadioState) (mem : Int → Nat) (length : Int) : RadioState :=
  let st := if st.bufferStreamPackets.numberOfPacketsToSend = 0 then
    { st with bufferStreamPackets :=
      { st.bufferStreamPackets with numberOfPacketsToSend := 1 } }
  else st
  (List.range length.toNat).foldl (fun s k => bufferAddStreamPacketByte s (mem (k : Int))) st

/-- The `len == 1` control-code branch of the receive handler
(lines 1061-1144).  Returns the new state, the emitted events, and the
`willSendDataFromBufferSerial` flag. -/
def onReceiveLen1 (st : RadioState) (mem : Int → Nat) (now : Nat) (eraseRc writeRc : Int) :
    RadioState × List Event × Bool :=
  if st.isWaitingForNewChannelNumber then
    let st := { st with isWaitingForNewChannelNumber := false, timeOfLastPoll := now }
    let r := setChannelNumber st (mem 0) eraseRc writeRc
    if r.2.1 then
      let st := { r.1 with gzllChannel := mem 0 }
      let ph := pollHost st now
      (ph.1, r.2.2 ++ ph.2, false)
    else
      (r.1, r.2.2, false)
  else if mem 0 = ORPM_PACKET_BAD_CHECK_SUM then
    ({ st with bufferSerial := { st.bufferSerial with
        numberOfPacketsSent := st.bufferSerial.numberOfPacketsSent - 1 } },
     vp st "R<-B\n", true)
  else if mem 0 = ORPM_PACKET_MISSED then
    ({ st with bufferSerial := { st.bufferSerial with numberOfPacketsSent := 0 } },
     vp st "R<-M\n", true)
  else if mem 0 = ORPM_CHANGE_CHANNEL_HOST_REQUEST then
    if st.isHost then
      (st, vp st "R<-CCHR\n" ++ [Event.radioToDevice [ORPM_INVALID_CODE_RECEIVED]], false)
    else
      ({ st with isWaitingForNewChannelNumber := true, timeOfLastPoll := now },
       vp st "R<-CCHR\n" ++ [Event.radioToHost [ORPM_CHANGE_CHANNEL_DEVICE_READY]], false)
  else if mem 0 = ORPM_CHANGE_CHANNEL_DEVICE_READY then
    if st.isHost then
      let r := setChannelNumber st st.radioChannel eraseRc writeRc
      ({ r.1 with gzllChannel := st.radioChannel },
       vp st "R<-CCDR\n" ++ [Event.radioToDevice [st.radioChannel % 256]] ++ r.2.2, false)
    else
      ({ st with timeOfLastPoll := now },
       vp st "R<-CCDR\n" ++ [Event.radioToHost [ORPM_CHANGE_CHANNEL_DEVICE_READY]], false)
  else
    if st.isHost then
      (st, [Event.radioToDevice [ORPM_INVALID_CODE_RECEIVED]], false)
    else
      ({ st with timeOfLastPoll := now }, [Event.radioToHost [ORPM_INVALID_CODE_RECEIVED]], false)

/-- Routing step of the `len > 1` branch when the packet was accepted
(lines 1217-1241): store it in the stream buffer or in `bufferRadio`. -/
def onReceiveGoodRoute (st : RadioState) (mem : Int → Nat) (len : Int)
    (gotLastPacket : Bool) : RadioState :=
  if byteIdGetIsStream (mem 0) then bufferAddStreamPacket st mem len
  else
    let st := bufferRadioAdd st mem len
    if gotLastPacket then
      { st with
        isTheHostsRadioBufferFilledWithAllThePacketsFromTheDevice := true,
        isTheDevicesRadioBufferFilledWithAllThePacketsFromTheHost := true }
    else st

/-- Tail of the `len > 1` branch when the packet was accepted
(lines 1217-1260): route it, then evaluate whether outbound data is
pending. -/
def onReceiveGoodTail (st : RadioState) (mem : Int → Nat) (len : Int) (now : Nat)
    (evs0 : List Event) (gotLastPacket : Bool) : RadioState × List Event × Bool :=
  let st := onReceiveGoodRoute st mem len gotLastPacket
  if st.bufferSerial.numberOfPacketsSent < st.bufferSerial.numberOfPacketsToSend then
    if theLastTimeNewSerialDataWasAvailableWasLongEnough st now then
      (st, evs0 ++ vp st "S->N\n", true)
    else (st, evs0 ++ vp st "S->N\n", false)
  else if st.bufferSerial.numberOfPacketsSent = st.bufferSerial.numberOfPacketsToSend ∧
      st.bufferSerial.numberOfPacketsToSend ≠ 0 then
    (bufferCleanSerial st st.bufferSerial.numberOfPacketsSent, evs0 ++ vp st "S->N\n", false)
  else
    if st.isDevice then
      let ph := pollHost st now
      (ph.1, evs0 ++ ph.2 ++ vp st "S->N\n", false)
    else (st, evs0 ++ vp st "S->N\n", false)

/-- Tail of the `len > 1` branch when the packet was rejected
(lines 1261-1268): reply with the prepared 1-byte message. -/
def onReceiveBadTail (st : RadioState) (now : Nat) (evs : List Event) (msg : Nat) :
    RadioState × List Event × Bool :=
  if st.isHost then (st, evs ++ [Event.radioToDevice [msg]], false)
  else ({ st with timeOfLastPoll := now }, evs ++ [Event.radioToHost [msg]], false)

/-- The `len > 1` payload branch of the receive handler (lines 1145-1268). -/
def onReceivePayload (st : RadioState) (mem : Int → Nat) (len : Int) (now : Nat) :
    RadioState × List Event × Bool :=
  let packetNumber := byteIdGetPacketNumber (mem 0)
  let evs0 := if st.verbosePrintouts then
    [Event.serialPrint "R<-", Event.serialPrint (toString packetNumber ++ "\n")] else []
  if checkSumsAreEqual mem len then
    if packetNumber = 0 ∧ st.previousPacketNumber = 0 then
      onReceiveGoodTail st mem len now evs0 true
    else if packetNumber > 0 ∧ st.previousPacketNumber = 0 then
      onReceiveGoodTail { st with previousPacketNumber := packetNumber } mem len now evs0 false
    else if st.previousPacketNumber - packetNumber = 1 then
      onReceiveGoodTail { st with previousPacketNumber := packetNumber } mem len now evs0
        (decide (packetNumber = 0))
    else
      let st := { st with bufferPositionWriteRadio := 0, previousPacketNumber := 0 }
      onReceiveBadTail st now (evs0 ++ vp st "S->M\n") ORPM_PACKET_MISSED
  else
    onReceiveBadTail st now (evs0 ++ vp st "S->B\n") ORPM_PACKET_BAD_CHECK_SUM

/-- The `len == 0` null-acknowledgement branch of the receive handler
(lines 1270-1293). -/
def onReceiveAck (st : RadioState) (now : Nat) : RadioState × List Event × Bool :=
  if st.isWaitingForNewChannelNumberConfirmation then
    ({ st with isWaitingForNewChannelNumberConfirmation := false },
     [Event.serialWrite OPENBCI_HOST_CHANNEL_CHANGE_SUCCESS], false)
  else if st.bufferSerial.numberOfPacketsSent < st.bufferSerial.numberOfPacketsToSend then
    if theLastTimeNewSerialDataWasAvailableWasLongEnough st now then (st, [], true)
    else (st, [], false)
  else if st.bufferSerial.numberOfPacketsSent = st.bufferSerial.numberOfPacketsToSend ∧
      st.bufferSerial.numberOfPacketsToSend ≠ 0 then
    (bufferCleanSerial st st.bufferSerial.numberOfPacketsSent, [], false)
  else (st, [], false)

/-- The trailing `if (willSendDataFromBufferSerial)` block of the receive
handler (lines 1296-1369): stamp the byteId on the packet about to go
out, apply the Host's single-packet command interpretation, send, and
increment `numberOfPacketsSent`. -/
def willSendBlock (st : RadioState) (mem : Int → Nat) (now : Nat) : RadioState × List Event :=
  let toSend := st.bufferSerial.numberOfPacketsToSend
  let sent := st.bufferSerial.numberOfPacketsSent
  let packetNumber := toSend - sent - 1
  let p0 := st.bufferSerial.packetBuffer sent
  let byteId := byteIdMake false packetNumber (some (fun j => p0.data (1 + j)))
    (p0.positionWrite - 1)
  let p := { p0 with data := writeMem p0.data 0 byteId }
  let st1 := { st with bufferSerial :=
    { st.bufferSerial with packetBuffer := writePacket st.bufferSerial.packetBuffer sent p } }
  let pkt := packetBytes p
  let vps := if st1.verbosePrintouts then
    [Event.serialPrint "S->", Event.serialPrint (toString packetNumber ++ "\n")] else []
  let r :=
    if st1.isHost then
      if toSend = 1 ∧ packetNumber = 0 then
        if p.positionWrite = 2 then
          if p.data 1 = OPENBCI_HOST_TIME_SYNC then
            (st1, [Event.serialWrite OPENBCI_HOST_TIME_SYNC_ACK, Event.radioToDevice pkt])
          else if p.data 1 = OPENBCI_HOST_CHANNEL_QUERY then
            (bufferCleanSerial st1 1, [Event.serialWrite (st1.flashChannel % 256)])
          else
            (st1, vps ++ [Event.radioToDevice pkt])
        else if p.positionWrite = 3 then
          if p.data 1 = OPENBCI_HOST_CHANNEL_CHANGE then
            if mem 2 > RFDUINOGZLL_CHANNEL_LIMIT_UPPER then
              (st1, [Event.serialWrite OPENBCI_HOST_CHANNEL_CHANGE_INVALID])
            else
              let evs := if st1.verbosePrintouts then
                [Event.serialPrint "New channel: ",
                 Event.serialPrint (toString (p.data 2) ++ "\n")] else []
              let st2 := { st1 with
                previousRadioChannel := st1.flashChannel, radioChannel := p.data 2 }
              (st2, evs ++ [Event.radioToDevice [ORPM_CHANGE_CHANNEL_HOST_REQUEST]])
          else (st1, vps ++ [Event.radioToDevice pkt])
        else (st1, vps ++ [Event.radioToDevice pkt])
      else (st1, vps ++ [Event.radioToDevice pkt])
    else
      ({ st1 with timeOfLastPoll := now }, vps ++ [Event.radioToHost pkt])
  ({ r.1 with bufferSerial := { r.1.bufferSerial with
      numberOfPacketsSent := r.1.bufferSerial.numberOfPacketsSent + 1 } }, r.2)

/-- Length dispatch of the receive handler (lines 1058-1293). -/
def onReceiveDispatch (st : RadioState) (mem : Int → Nat) (len : Int) (now : Nat)
    (eraseRc writeRc : Int) : RadioState × List Event × Bool :=
  if len = 1 then onReceiveLen1 st mem now eraseRc writeRc
  else if len > 1 then onReceivePayload st mem len now
  else onReceiveAck st now

/-- Final step of the receive handler: run the send block when a send is
pending (lines 1296-1369). -/
def onReceiveFinish (st : RadioState) (mem : Int → Nat) (now : Nat)
    (d : RadioState × List Event × Bool) : RadioState × List Event :=
  if d.2.2 then
    let r := willSendBlock d.1 mem now
    (r.1, d.2.1 ++ r.2)
  else (d.1, d.2.1)

/-- Translation of `RFduinoGZLL_onReceive` (line 1050).  `data`/`len` is
the received radio packet, `now` models `millis()`, and
`eraseRc`/`writeRc` are the flash-persistence oracles
(see `setChannelNumber`). -/
def RFduinoGZLL_onReceive (st0 : RadioState) (data : List Nat) (len : Int)
    (now : Nat) (eraseRc writeRc : Int) : RadioState × List Event :=
  let mem := memOfList data
  let st := if st0.isHost then { st0 with lastTimeHostHeardFromDevice := now } else st0
  onReceiveFinish st mem now (onReceiveDispatch st mem len now eraseRc writeRc)

/-- Recogniser for radio send events. -/
def isRadioEvent (e : Event) : Bool :=
  match e with
  | Event.radioToHost _ => true
  | Event.radioToDevice _ => true
  | _ => false

/-- Mid-handler contract for C1: if no send is pending the invariant
already holds; if a send is pending, the counters and the packet buffer
are in a shape that the trailing send block turns back into the
invariant. -/
def C1Mid (st0 : RadioState) (d : RadioState × List Event × Bool) : Prop :=
  (d.2.2 = false → bufferInvariant d.1.bufferSerial) ∧
  (d.2.2 = true →
    d.1.isHost = st0.isHost ∧
    d.1.bufferSerial.packetBuffer = st0.bufferSerial.packetBuffer ∧
    d.1.bufferSerial.numberOfPacketsToSend = st0.bufferSerial.numberOfPacketsToSend ∧
    -1 ≤ d.1.bufferSerial.numberOfPacketsSent ∧
    d.1.bufferSerial.numberOfPacketsSent + 1 ≤ d.1.bufferSerial.numberOfPacketsToSend)

/-! ## C9: stream packet detection and launch -/

/-- Translation of `isAStreamPacketWaitingForLaunch` (line 470). -/
def isAStreamPacketWaitingForLaunch (st : RadioState) : Bool :=
  st.streamPacketBuffer.readyForLaunch

/-- Translation of `hasEnoughTimePassedToLaunchStreamPacket` (line 478);
`nowUs` models `micros()`. -/
def hasEnoughTimePassedToLaunchStreamPacket (st : RadioState) (nowUs : Nat) : Bool :=
  decide (nowUs > st.timeWeGot0xFXFromPic + OPENBCI_SERIAL_TIMEOUT_uS)

/-- Translation of `byteIdMakeStreamPacketType` (line 958). -/
def byteIdMakeStreamPacketType (st : RadioState) : Nat :=
  st.streamPacketBuffer.typeByte &&& 0x0F

/-- Translation of `sendStreamPacketToTheHost` (line 488): stamp the
stream byteId on the buffered packet, radio it to the Host as 32 bytes,
clean the serial buffer, reset the stream detector, refresh the poll. -/
def sendStreamPacketToTheHost (st : RadioState) (now : Nat) : RadioState × List Event :=
  let packetType := byteIdMakeStreamPacketType st
  let byteId := byteIdMake true (packetType : Int)
    (some (fun j => st.streamPacketBuffer.data (1 + j))) OPENBCI_MAX_DATA_BYTES_IN_PACKET
  let d2 := writeMem st.streamPacketBuffer.data 0 byteId
  let st := { st with streamPacketBuffer := { st.streamPacketBuffer with data := d2 } }
  let evs := [Event.radioToHost ((List.range 32).map (fun j => d2 (j : Int)))]
  let st := bufferCleanSerial st st.bufferSerial.numberOfPacketsToSend
  let st := bufferResetStreamPacketBuffer st
  ({ st with timeOfLastPoll := now }, evs)

/-- Modelled from the spec: the Device's main loop launches the pending
stream packet once the two guard functions fire (this dispatch lives in
the example sketch, not in the library source). -/
def streamPacketDispatch (st : RadioState) (now nowUs : Nat) : RadioState × List Event :=
  if isAStreamPacketWaitingForLaunch st && hasEnoughTimePassedToLaunchStreamPacket st nowUs then
    sendStreamPacketToTheHost st now
  else (st, [])

/-! ## C10: flushing the Host's stream packet buffer -/

/-- Translation of `writeStreamPacket` (line 360): start byte, the 31
bytes `data[1..31]`, stop byte computed from `data[0]`. -/
def writeStreamPacket (data : Int → Nat) : List Event :=
  [Event.serialWrite OPENBCI_STREAM_BYTE_START] ++
    (List.range 31).map (fun i => Event.serialWrite (data ((i : Int) + 1))) ++
    [Event.serialWrite (outputGetStopByteFromByteId (data 0))]

/-- The while loop of `writeTheHostsStreamPacketBufferToThePC`
(lines 341-349), with fuel for the remaining iterations.  Note that the
C code passes `bufferStreamPackets.packetBuffer->data +
numberOfPacketsSent` — a byte offset into packet 0's data array — to
`writeStreamPacket`. -/
def writeHostsStreamLoop (st : RadioState) : Nat → RadioState × List Event
  | 0 => (st, [])
  | fuel + 1 =>
    if st.bufferStreamPackets.numberOfPacketsToSend >
        st.bufferStreamPackets.numberOfPacketsSent then
      let evs := writeStreamPacket
        (fun j => (st.bufferStreamPackets.packetBuffer 0).data
          (st.bufferStreamPackets.numberOfPacketsSent + j))
      let st2 := { st with bufferStreamPackets :=
        { st.bufferStreamPackets with
          numberOfPacketsSent := st.bufferStreamPackets.numberOfPacketsSent + 1 } }
      let r := writeHostsStreamLoop st2 fuel
      (r.1, evs ++ r.2)
    else (st, [])

/-- Translation of `writeTheHostsStreamPacketBufferToThePC` (line 339):
drain the pending stream packets, then clean the stream packet buffer. -/
def writeTheHostsStreamPacketBufferToThePC (st : RadioState) : RadioState × List Event :=
  let r := writeHostsStreamLoop st
    (st.bufferStreamPackets.numberOfPacketsToSend -
      st.bufferStreamPackets.numberOfPacketsSent).toNat
  (bufferCleanStreamPackets r.1 r.1.bufferStreamPackets.numberOfPacketsToSend, r.2)

/-- A stream packet whose 32 stored bytes are `base, base+1, ...`. -/
def c10packet (base : Nat) : Packet :=
  { data := fun j => if 0 ≤ j ∧ j < 32 then base + j.toNat else 0,
    positionRead := 0,
    positionWrite := 32 }

/-- A Host with two distinct pending stream packets. -/
def c10state : RadioState :=
  { mkCleanState false with bufferStreamPackets :=
    { packetBuffer := fun i =>
        if i = 0 then c10packet 0 else if i = 1 then c10packet 100 else zeroPacket,
      numberOfPacketsToSend := 2,
      numberOfPacketsSent := 0 } }

/-! ## Theorems -/

/-! ### Codec lemmas -/

theorem land_seven_eq_mod (n : Nat) : n &&& 7 = n % 8 := by
  have h := Nat.and_pow_two_sub_one_eq_mod n 3
  norm_num at h
  exact h

theorem checkSumMake_lt_8 (d : Option (Int → Nat)) (l : Int) : checkSumMake d l < 8 := by
  cases d with
  | none => simp [checkSumMake]
  | some f =>
    simp only [checkSumMake]
    exact Nat.lt_succ_of_le Nat.and_le_right

theorem sumBytes_congr {f g : Int → Nat} (n : Nat)
    (h : ∀ j : Nat, j < n → f j = g j) : sumBytes f n = sumBytes g n := by
  induction n with
  | zero => rfl
  | succ n ih =>
    simp only [sumBytes]
    rw [ih (fun j hj => h j (Nat.lt_succ_of_lt hj)), h n (Nat.lt_succ_self n)]

/-- Unfolding lemma for the non-null checksum. -/
theorem checkSumMake_some (f : Int → Nat) (length : Int) :
    checkSumMake (some f) length
      = (4294967296 - sumBytes f (checkSumIters length) % 4294967296) % 4294967296 &&& 7 := rfl

/-- A positive in-range length runs the loop exactly `length` times. -/
theorem checkSumIters_pos (len : Int) (h1 : 1 ≤ len) (h2 : len < 4294967296) :
    checkSumIters len = len.toNat := by
  have hlt : len % (4294967296 : Int) = len := Int.emod_eq_of_lt (by omega) h2
  have hne : len.toNat ≠ 0 := by omega
  simp only [checkSumIters, hlt, if_neg hne]

/-- Closed form of the checksum for a positive in-range length:
the low 3 bits of the 32-bit negation of the byte sum. -/
theorem checkSumMake_pos (f : Int → Nat) (len : Int)
    (h1 : 1 ≤ len) (h2 : len < 4294967296) :
    checkSumMake (some f) len = (8 - sumBytes f len.toNat % 8) % 8 := by
  rw [checkSumMake_some, checkSumIters_pos len h1 h2, land_seven_eq_mod]
  have hdvd : (8 : Nat) ∣ 4294967296 := by norm_num
  rw [Nat.mod_mod_of_dvd _ hdvd]
  have hs : sumBytes f len.toNat % 4294967296 ≤ 4294967296 := le_of_lt (Nat.mod_lt _ (by norm_num))
  have hs8 : sumBytes f len.toNat % 4294967296 % 8 = sumBytes f len.toNat % 8 :=
    Nat.mod_mod_of_dvd _ hdvd
  omega

/-- The checksum is the additive inverse of the byte sum modulo 8. -/
theorem checkSumMake_add_sum (f : Int → Nat) (len : Int)
    (h1 : 1 ≤ len) (h2 : len < 4294967296) :
    (checkSumMake (some f) len + sumBytes f len.toNat) % 8 = 0 := by
  rw [checkSumMake_pos f len h1 h2]
  omega

theorem byteId_and_seven : ∀ (s : Bool) (m : Fin 16) (c : Fin 8),
    (((if s then (0 : Nat) ||| 0x80 else (0 : Nat)) ||| ((m : Nat) <<< 3)) ||| (c : Nat)) &&& 0x07
      = (c : Nat) := by decide

theorem byteId_bits_to_pn : ∀ (s : Bool) (m : Fin 16) (c : Fin 8),
    ((((if s then (0 : Nat) ||| 0x80 else (0 : Nat)) ||| ((m : Nat) <<< 3)) ||| (c : Nat)) &&& 0x78) >>> 3
      = (m : Nat) := by decide

theorem byteId_bits_stream : ∀ (s : Bool) (m : Fin 16) (c : Fin 8),
    decide (0x7F < (((if s then (0 : Nat) ||| 0x80 else (0 : Nat)) ||| ((m : Nat) <<< 3)) ||| (c : Nat)))
      = s := by decide

/-- Shape of `byteIdMake` used to apply the finite-case bit lemmas. -/
theorem byteIdMake_eq (s : Bool) (pn : Int) (d : Option (Int → Nat)) (len : Int) :
    byteIdMake s pn d len
      = ((if s then (0 : Nat) ||| 0x80 else (0 : Nat)) ||| ((pn % 16).toNat <<< 3))
          ||| checkSumMake d len := by
  simp only [byteIdMake]

theorem pnmod_lt_16 (pn : Int) : (pn % 16).toNat < 16 := by
  have h1 : 0 ≤ pn % 16 := Int.emod_nonneg pn (by norm_num)
  have h2 : pn % 16 < 16 := Int.emod_lt_of_pos pn (by norm_num)
  omega

/-- Header extraction: the low 3 bits of a made byteId are the checksum. -/
theorem byteIdMake_and_seven (s : Bool) (pn : Int) (d : Option (Int → Nat)) (len : Int) :
    byteIdMake s pn d len &&& 0x07 = checkSumMake d len := by
  rw [byteIdMake_eq]
  exact byteId_and_seven s ⟨(pn % 16).toNat, pnmod_lt_16 pn⟩
    ⟨checkSumMake d len, checkSumMake_lt_8 d len⟩

/-- Header extraction: bits 6..3 of a made byteId are `packetNumber % 16`. -/
theorem byteIdMake_pn_bits (s : Bool) (pn : Int) (d : Option (Int → Nat)) (len : Int) :
    (byteIdMake s pn d len &&& 0x78) >>> 3 = (pn % 16).toNat := by
  rw [byteIdMake_eq]
  exact byteId_bits_to_pn s ⟨(pn % 16).toNat, pnmod_lt_16 pn⟩
    ⟨checkSumMake d len, checkSumMake_lt_8 d len⟩

/-- Header extraction: bit 7 of a made byteId is the stream flag. -/
theorem byteIdMake_stream_bit (s : Bool) (pn : Int) (d : Option (Int → Nat)) (len : Int) :
    byteIdGetIsStream (byteIdMake s pn d len) = s := by
  rw [byteIdGetIsStream, byteIdMake_eq]
  exact byteId_bits_stream s ⟨(pn % 16).toNat, pnmod_lt_16 pn⟩
    ⟨checkSumMake d len, checkSumMake_lt_8 d len⟩

/-- Two memories that agree on the summed range have equal checksums. -/
theorem checkSumMake_eq_of_agree {f g : Int → Nat} (len : Int)
    (h1 : 1 ≤ len) (h2 : len < 4294967296)
    (h : ∀ j : Nat, j < len.toNat → f j = g j) :
    checkSumMake (some f) len = checkSumMake (some g) len := by
  rw [checkSumMake_pos f len h1 h2, checkSumMake_pos g len h1 h2,
    sumBytes_congr len.toNat h]

/-- C2. For every byte sequence `data` of length 1..31, every stream flag
and every packet number, prepending the header `byteIdMake(b, n, data, len)`
to `data` and checking the resulting `len+1`-byte packet with
`checkSumsAreEqual` yields true: the codec round-trips. -/
theorem c2_codec_roundtrip (l : List Nat) (b : Bool) (n : Int)
    (h1 : 1 ≤ l.length) (h2 : l.length ≤ 31) :
    checkSumsAreEqualL (byteIdMakeL b n l :: l) ((l.length : Int) + 1) = true := by
  have h1' : (1 : Int) ≤ (l.length : Int) := by exact_mod_cast h1
  have h32 : (l.length : Int) < 4294967296 := by omega
  have hmain : byteIdMake b n (some (memOfList l)) (l.length : Int) &&& 0x07
      = checkSumMake (some (fun i => memOfList (byteIdMakeL b n l :: l) (1 + i)))
          ((l.length : Int) + 1 - 1) := by
    rw [byteIdMake_and_seven]
    have hlen : ((l.length : Int) + 1 - 1) = (l.length : Int) := by ring
    rw [hlen]
    apply checkSumMake_eq_of_agree (l.length : Int) h1' h32
    intro j hj
    simp only [memOfList]
    have hj' : (0 : Int) ≤ (j : Int) := Int.ofNat_nonneg j
    have h1j : (0 : Int) ≤ 1 + (j : Int) := by omega
    rw [if_pos hj', if_pos h1j]
    have hix : ((1 : Int) + (j : Int)).toNat = j + 1 := by omega
    rw [hix]
    simp
  simp only [checkSumsAreEqualL, checkSumsAreEqual, beq_iff_eq, byteIdGetCheckSum]
  exact hmain

/-- C7 witnessable form. For every packetNumber in 0..15 and every
payload, `byteIdGetPacketNumber (byteIdMake false pn data len) = pn`, and
`byteIdGetIsStream (byteIdMake s pn data len) = s` for both values of the
stream flag, independent of the packet-number and checksum bits. -/
theorem c7_byteid_extractors (pn : Int) (h0 : 0 ≤ pn) (h15 : pn ≤ 15)
    (s : Bool) (d : Option (Int → Nat)) (len : Int) :
    byteIdGetPacketNumber (byteIdMake false pn d len) = pn ∧
    byteIdGetIsStream (byteIdMake s pn d len) = s := by
  constructor
  · simp only [byteIdGetPacketNumber]
    rw [byteIdMake_pn_bits]
    have : pn % 16 = pn := Int.emod_eq_of_lt h0 (by omega)
    rw [this]
    omega
  · exact byteIdMake_stream_bit s pn d len

/-- Witness for C7 at packetNumber 5, both extractors, concrete payload. -/
theorem c7_byteid_extractors_witness :
    byteIdGetPacketNumber (byteIdMake false 5 none 0) = 5 ∧
    byteIdGetIsStream (byteIdMake true 5 none 0) = true := by
  refine ⟨(c7_byteid_extractors 5 (by decide) (by decide) true none 0).1, ?_⟩
  exact (c7_byteid_extractors 5 (by decide) (by decide) true none 0).2

/-- Witness for C2 at a concrete 3-byte payload. -/
theorem c2_codec_roundtrip_witness :
    checkSumsAreEqualL (byteIdMakeL true 3 [5, 6, 7] :: [5, 6, 7]) 4 = true := by
  have h := c2_codec_roundtrip [5, 6, 7] true 3 (by decide) (by decide)
  simpa using h

theorem sumBytes_oneAtZero (n : Nat) (h : 1 ≤ n) : sumBytes oneAtZero n = 1 := by
  induction n with
  | zero => omega
  | succ n ih =>
    simp only [sumBytes]
    cases Nat.eq_zero_or_pos n with
    | inl h0 => subst h0; simp [sumBytes, oneAtZero]
    | inr hpos =>
      rw [ih hpos]
      have hne : ((n : Int) = 0) ↔ False := by
        constructor
        · intro hc; omega
        · intro hc; exact hc.elim
      simp [oneAtZero, hne]

/-- C8 counterexample. The claim says zero-length input yields checksum 0;
on the code the do-while underflows the length counter and sums 2^32
bytes of memory, so with a 1 in the first byte the zero-length checksum
is 7, not 0. -/
theorem c8_counterexample :
    checkSumMake (some oneAtZero) 0 = 7 ∧ checkSumMake (some oneAtZero) 0 ≠ 0 := by
  have hiters : checkSumIters 0 = 4294967296 := rfl
  have h : checkSumMake (some oneAtZero) 0 = 7 := by
    rw [checkSumMake_some, hiters, sumBytes_oneAtZero 4294967296 (by norm_num),
      land_seven_eq_mod]
  exact ⟨h, by rw [h]; decide⟩

/-- C8 amended. `checkSumMake` is total; a null data pointer returns 0;
for a positive in-range length the result is the low 3 bits of the
negated unsigned sum of the `length` bytes, i.e. it is below 8 and
cancels the byte sum modulo 8.  (Zero length does not return 0: the
do-while loop wraps the counter, see the counterexample.) -/
theorem c8_checksum_characterisation :
    (∀ len : Int, checkSumMake none len = 0) ∧
    (∀ (f : Int → Nat) (len : Int), 1 ≤ len → len < 4294967296 →
      checkSumMake (some f) len < 8 ∧
      (checkSumMake (some f) len + sumBytes f len.toNat) % 8 = 0) := by
  constructor
  · intro len; rfl
  · intro f len h1 h2
    exact ⟨checkSumMake_lt_8 _ _, checkSumMake_add_sum f len h1 h2⟩

/-- Witness for C8 amended at a concrete memory and length. -/
theorem c8_checksum_characterisation_witness :
    checkSumMake none 5 = 0 ∧
    checkSumMake (some oneAtZero) 2 < 8 ∧
    (checkSumMake (some oneAtZero) 2 + sumBytes oneAtZero 2) % 8 = 0 := by
  refine ⟨c8_checksum_characterisation.1 5, ?_, ?_⟩
  · exact (c8_checksum_characterisation.2 oneAtZero 2 (by decide) (by decide)).1
  · exact (c8_checksum_characterisation.2 oneAtZero 2 (by decide) (by decide)).2

/-! ## Basic state lemmas -/

@[simp]
theorem writeMem_same (f : Int → Nat) (i : Int) (v : Nat) : writeMem f i v i = v := by
  simp [writeMem]

theorem writeMem_other (f : Int → Nat) (i j : Int) (v : Nat) (h : j ≠ i) :
    writeMem f i v j = f j := by
  simp [writeMem, h]

@[simp]
theorem writePacket_same (f : Int → Packet) (i : Int) (p : Packet) : writePacket f i p i = p := by
  simp [writePacket]

theorem writePacket_other (f : Int → Packet) (i j : Int) (p : Packet) (h : j ≠ i) :
    writePacket f i p j = f j := by
  simp [writePacket, h]

theorem processChar_bufferSerial (st : RadioState) (c nowUs : Nat) :
    (processCharForStreamPacket st c nowUs).bufferSerial = st.bufferSerial := by
  simp only [processCharForStreamPacket, bufferResetStreamPacketBuffer]
  split_ifs <;> rfl

theorem processChar_currentPacketBufferSerial (st : RadioState) (c nowUs : Nat) :
    (processCharForStreamPacket st c nowUs).currentPacketBufferSerial
      = st.currentPacketBufferSerial := by
  simp only [processCharForStreamPacket, bufferResetStreamPacketBuffer]
  split_ifs <;> rfl

theorem processChar_isDevice (st : RadioState) (c nowUs : Nat) :
    (processCharForStreamPacket st c nowUs).isDevice = st.isDevice := by
  simp only [processCharForStreamPacket, bufferResetStreamPacketBuffer]
  split_ifs <;> rfl

theorem processChar_isHost (st : RadioState) (c nowUs : Nat) :
    (processCharForStreamPacket st c nowUs).isHost = st.isHost := by
  simp only [processCharForStreamPacket, bufferResetStreamPacketBuffer]
  split_ifs <;> rfl

theorem fetchStep_eq (st : RadioState) (c now nowUs : Nat) :
    fetchStep st c now nowUs =
      (fetchStepTimers (fetchStepStore (fetchStepWrap st).1 c nowUs).1 now,
       (fetchStepWrap st).2 ++ (fetchStepStore (fetchStepWrap st).1 c nowUs).2) := rfl

theorem fetchStepWrap_nowrap (st : RadioState) (q : Int)
    (hcur : st.currentPacketBufferSerial = some q)
    (hpw : (st.bufferSerial.packetBuffer q).positionWrite < 32) :
    fetchStepWrap st = (st, []) := by
  have hderef : derefSerial st = st.bufferSerial.packetBuffer q := by
    simp [derefSerial, hcur]
  rw [fetchStepWrap, hderef]
  rw [if_neg (show ¬((st.bufferSerial.packetBuffer q).positionWrite ≥
    OPENBCI_MAX_PACKET_SIZE_BYTES) by simp only [OPENBCI_MAX_PACKET_SIZE_BYTES]; omega)]

theorem fetchStepWrap_advance (st : RadioState) (q : Int)
    (hcur : st.currentPacketBufferSerial = some q)
    (hpw : 32 ≤ (st.bufferSerial.packetBuffer q).positionWrite)
    (hts : st.bufferSerial.numberOfPacketsToSend + 1 < 4) :
    fetchStepWrap st =
      ({ st with
        bufferSerial := { st.bufferSerial with
          numberOfPacketsToSend := st.bufferSerial.numberOfPacketsToSend + 1 },
        currentPacketBufferSerial := some (q + 1) }, []) := by
  have hderef : derefSerial st = st.bufferSerial.packetBuffer q := by
    simp [derefSerial, hcur]
  rw [fetchStepWrap, hderef]
  rw [if_pos (show (st.bufferSerial.packetBuffer q).positionWrite ≥
    OPENBCI_MAX_PACKET_SIZE_BYTES by simp only [OPENBCI_MAX_PACKET_SIZE_BYTES]; omega)]
  rw [if_neg (show ¬({ st with bufferSerial := { st.bufferSerial with
      numberOfPacketsToSend := st.bufferSerial.numberOfPacketsToSend + 1 }
    } : RadioState).bufferSerial.numberOfPacketsToSend ≥ OPENBCI_MAX_NUMBER_OF_BUFFERS by
    simp only [OPENBCI_MAX_NUMBER_OF_BUFFERS]; omega)]
  rw [hcur]
  rfl

theorem fetchOverflow_eq (st : RadioState) :
    fetchOverflow st =
      (bufferCleanSerial { st with currentPacketBufferSerial := none } 4,
       overflowSignal st.isDevice st.isHost) := by
  rw [fetchOverflow, overflowSignal]
  simp only [bufferCleanSerial, OPENBCI_MAX_NUMBER_OF_BUFFERS]
  split_ifs <;> rfl

theorem fetchStepWrap_overflow (st : RadioState) (q : Int)
    (hcur : st.currentPacketBufferSerial = some q)
    (hpw : 32 ≤ (st.bufferSerial.packetBuffer q).positionWrite)
    (hts : 4 ≤ st.bufferSerial.numberOfPacketsToSend + 1) :
    fetchStepWrap st =
      (bufferCleanSerial
        { st with
          bufferSerial := { st.bufferSerial with
            numberOfPacketsToSend := st.bufferSerial.numberOfPacketsToSend + 1 },
          currentPacketBufferSerial := none } 4,
       overflowSignal st.isDevice st.isHost) := by
  have hderef : derefSerial st = st.bufferSerial.packetBuffer q := by
    simp [derefSerial, hcur]
  rw [fetchStepWrap, hderef]
  rw [if_pos (show (st.bufferSerial.packetBuffer q).positionWrite ≥
    OPENBCI_MAX_PACKET_SIZE_BYTES by simp only [OPENBCI_MAX_PACKET_SIZE_BYTES]; omega)]
  rw [if_pos (show ({ st with bufferSerial := { st.bufferSerial with
      numberOfPacketsToSend := st.bufferSerial.numberOfPacketsToSend + 1 }
    } : RadioState).bufferSerial.numberOfPacketsToSend ≥ OPENBCI_MAX_NUMBER_OF_BUFFERS by
    simp only [OPENBCI_MAX_NUMBER_OF_BUFFERS]; omega)]
  rw [fetchOverflow_eq]

theorem fetchStepStore_some (st : RadioState) (q : Int) (c nowUs : Nat)
    (hcur : st.currentPacketBufferSerial = some q) :
    fetchStepStore st c nowUs = (fetchWrite st q c nowUs, []) := by
  rw [fetchStepStore, hcur, fetchWrite, hcur]

/-! ### Field-preservation lemmas for the loop-body pieces -/

theorem fetchWrite_bufferSerial (st : RadioState) (q : Int) (c nowUs : Nat) :
    (fetchWrite st q c nowUs).bufferSerial
      = { (st.bufferSerial) with packetBuffer := (writePacket st.bufferSerial.packetBuffer q
            { (st.bufferSerial.packetBuffer q) with
              data := writeMem (st.bufferSerial.packetBuffer q).data
                (st.bufferSerial.packetBuffer q).positionWrite c,
              positionWrite := (st.bufferSerial.packetBuffer q).positionWrite + 1 }) } := by
  rw [fetchWrite]
  split_ifs with h
  · rw [processChar_bufferSerial]
  · rfl

theorem fetchWrite_cursor (st : RadioState) (q : Int) (c nowUs : Nat) :
    (fetchWrite st q c nowUs).currentPacketBufferSerial = st.currentPacketBufferSerial := by
  rw [fetchWrite]
  split_ifs with h
  · rw [processChar_currentPacketBufferSerial]
  · rfl

theorem fetchWrite_isDevice (st : RadioState) (q : Int) (c nowUs : Nat) :
    (fetchWrite st q c nowUs).isDevice = st.isDevice := by
  rw [fetchWrite]
  split_ifs with h
  · rw [processChar_isDevice]
  · rfl

theorem fetchWrite_isHost (st : RadioState) (q : Int) (c nowUs : Nat) :
    (fetchWrite st q c nowUs).isHost = st.isHost := by
  rw [fetchWrite]
  split_ifs with h
  · rw [processChar_isHost]
  · rfl

theorem fetchStepTimers_bufferSerial (st : RadioState) (now : Nat) :
    (fetchStepTimers st now).bufferSerial = st.bufferSerial := by
  rw [fetchStepTimers]
  split_ifs <;> rfl

theorem fetchStepTimers_cursor (st : RadioState) (now : Nat) :
    (fetchStepTimers st now).currentPacketBufferSerial = st.currentPacketBufferSerial := by
  rw [fetchStepTimers]
  split_ifs <;> rfl

theorem fetchStepTimers_isDevice (st : RadioState) (now : Nat) :
    (fetchStepTimers st now).isDevice = st.isDevice := by
  rw [fetchStepTimers]
  split_ifs <;> rfl

theorem fetchStepTimers_isHost (st : RadioState) (now : Nat) :
    (fetchStepTimers st now).isHost = st.isHost := by
  rw [fetchStepTimers]
  split_ifs <;> rfl

/-- Characterisation of a fetch iteration that neither wraps nor
overflows: the byte is appended to the packet at the cursor. -/
theorem fetchStep_char_nowrap (st : RadioState) (q : Int) (c now nowUs : Nat)
    (hcur : st.currentPacketBufferSerial = some q)
    (hpw : (st.bufferSerial.packetBuffer q).positionWrite < 32) :
    (fetchStep st c now nowUs).1.bufferSerial.numberOfPacketsToSend
        = st.bufferSerial.numberOfPacketsToSend ∧
    (fetchStep st c now nowUs).1.bufferSerial.numberOfPacketsSent
        = st.bufferSerial.numberOfPacketsSent ∧
    (fetchStep st c now nowUs).1.currentPacketBufferSerial = some q ∧
    (fetchStep st c now nowUs).1.bufferSerial.packetBuffer
        = writePacket st.bufferSerial.packetBuffer q (writtenPacket st q c) ∧
    (fetchStep st c now nowUs).1.isDevice = st.isDevice ∧
    (fetchStep st c now nowUs).1.isHost = st.isHost ∧
    (fetchStep st c now nowUs).2 = [] := by
  rw [fetchStep_eq, fetchStepWrap_nowrap st q hcur hpw]
  simp only [fetchStepStore_some st q c nowUs hcur]
  simp only [fetchStepTimers_bufferSerial, fetchStepTimers_cursor, fetchStepTimers_isDevice,
    fetchStepTimers_isHost, fetchWrite_bufferSerial, fetchWrite_cursor, fetchWrite_isDevice,
    fetchWrite_isHost, writtenPacket, hcur, List.append_nil]
  refine ⟨?_, ?_, ?_, ?_, ?_, ?_, ?_⟩ <;> trivial

/-- Characterisation of a fetch iteration that wraps to the next packet
slot without overflowing. -/
theorem fetchStep_char_advance (st : RadioState) (q : Int) (c now nowUs : Nat)
    (hcur : st.currentPacketBufferSerial = some q)
    (hpw : 32 ≤ (st.bufferSerial.packetBuffer q).positionWrite)
    (hts : st.bufferSerial.numberOfPacketsToSend + 1 < 4) :
    (fetchStep st c now nowUs).1.bufferSerial.numberOfPacketsToSend
        = st.bufferSerial.numberOfPacketsToSend + 1 ∧
    (fetchStep st c now nowUs).1.bufferSerial.numberOfPacketsSent
        = st.bufferSerial.numberOfPacketsSent ∧
    (fetchStep st c now nowUs).1.currentPacketBufferSerial = some (q + 1) ∧
    (fetchStep st c now nowUs).1.bufferSerial.packetBuffer
        = writePacket st.bufferSerial.packetBuffer (q + 1) (writtenPacket st (q + 1) c) ∧
    (fetchStep st c now nowUs).1.isDevice = st.isDevice ∧
    (fetchStep st c now nowUs).1.isHost = st.isHost ∧
    (fetchStep st c now nowUs).2 = [] := by
  rw [fetchStep_eq, fetchStepWrap_advance st q hcur hpw hts]
  have hcur2 : ({ st with
      bufferSerial := { st.bufferSerial with
        numberOfPacketsToSend := st.bufferSerial.numberOfPacketsToSend + 1 },
      currentPacketBufferSerial := some (q + 1) } : RadioState).currentPacketBufferSerial
      = some (q + 1) := rfl
  simp only [fetchStepStore_some _ (q + 1) c nowUs hcur2]
  simp only [fetchStepTimers_bufferSerial, fetchStepTimers_cursor, fetchStepTimers_isDevice,
    fetchStepTimers_isHost, fetchWrite_bufferSerial, fetchWrite_cursor, fetchWrite_isDevice,
    fetchWrite_isHost, writtenPacket, List.append_nil]
  refine ⟨?_, ?_, ?_, ?_, ?_, ?_, ?_⟩ <;> trivial

/-- Characterisation of a fetch iteration that hits the overflow path:
the serial buffer is cleaned, the signal emitted, and the byte then
written into the fresh packet 0. -/
theorem fetchStep_char_overflow (st : RadioState) (q : Int) (c now nowUs : Nat)
    (hcur : st.currentPacketBufferSerial = some q)
    (hpw : 32 ≤ (st.bufferSerial.packetBuffer q).positionWrite)
    (hts : 4 ≤ st.bufferSerial.numberOfPacketsToSend + 1) :
    (fetchStep st c now nowUs).1.bufferSerial.numberOfPacketsToSend = 0 ∧
    (fetchStep st c now nowUs).1.bufferSerial.numberOfPacketsSent = 0 ∧
    (fetchStep st c now nowUs).1.currentPacketBufferSerial = some 0 ∧
    (fetchStep st c now nowUs).1.bufferSerial.packetBuffer
        = (writePacket (bufferCleanPacketBuffer st.bufferSerial.packetBuffer 4) 0
            { (bufferCleanPacketBuffer st.bufferSerial.packetBuffer 4 0) with
              data := writeMem (bufferCleanPacketBuffer st.bufferSerial.packetBuffer 4 0).data
                (bufferCleanPacketBuffer st.bufferSerial.packetBuffer 4 0).positionWrite c,
              positionWrite :=
                (bufferCleanPacketBuffer st.bufferSerial.packetBuffer 4 0).positionWrite + 1 }) ∧
    (fetchStep st c now nowUs).1.isDevice = st.isDevice ∧
    (fetchStep st c now nowUs).1.isHost = st.isHost ∧
    (fetchStep st c now nowUs).2 = overflowSignal st.isDevice st.isHost := by
  rw [fetchStep_eq, fetchStepWrap_overflow st q hcur hpw hts]
  have hcur2 : (bufferCleanSerial
      { st with
        bufferSerial := { st.bufferSerial with
          numberOfPacketsToSend := st.bufferSerial.numberOfPacketsToSend + 1 },
        currentPacketBufferSerial := none } 4).currentPacketBufferSerial = some 0 := rfl
  simp only [fetchStepStore_some _ 0 c nowUs hcur2]
  simp only [fetchStepTimers_bufferSerial, fetchStepTimers_cursor, fetchStepTimers_isDevice,
    fetchStepTimers_isHost, fetchWrite_bufferSerial, fetchWrite_cursor, fetchWrite_isDevice,
    fetchWrite_isHost, writtenPacket, bufferCleanSerial, bufferCleanBuffer, List.append_nil]
  refine ⟨?_, ?_, ?_, ?_, ?_, ?_, ?_⟩ <;> trivial

/-- One fetch iteration preserves the combined invariant and emits the
overflow signal exactly at the 94th byte. -/
theorem fetchStep_invA (dv hs : Bool) (full : List Nat) (j : Nat) (st : RadioState)
    (c now nowUs : Nat) (hc : c = full.getD j 0)
    (hj : j + 1 ≤ 124) (h : FetchInvA dv hs full j st) :
    FetchInvA dv hs full (j + 1) (fetchStep st c now nowUs).1 ∧
    (fetchStep st c now nowUs).2 = (if j = 93 then overflowSignal dv hs else []) := by
  obtain ⟨hdv, hhs, hphase⟩ := h
  rcases hphase with ⟨hj93, hInv⟩ | ⟨h94, h124, hInv2⟩
  · -- phase 1
    obtain ⟨hts, hsent, hcur, hpwq, hfull, hgap, hdata⟩ := hInv
    by_cases hwrap : (j : Int) - 31 * ((j - 1) / 31 : Nat) + 1 < 32
    · -- no wrap: plain append into packet q
      have hq1 : (j + 1 - 1) / 31 = (j - 1) / 31 := by omega
      have hchar := fetchStep_char_nowrap st ((j - 1) / 31 : Nat) c now nowUs hcur (by omega)
      obtain ⟨e1, e2, e3, e4, e5, e6, e7⟩ := hchar
      refine ⟨⟨by rw [e5, hdv], by rw [e6, hhs], Or.inl ⟨by omega, ?_, ?_, ?_, ?_, ?_, ?_, ?_⟩⟩,
        by rw [e7]; rw [if_neg (by omega)]⟩
      · rw [e1, hq1]; exact hts
      · rw [e2]; exact hsent
      · rw [e3, hq1]
      · rw [hq1, e4, writePacket_same]
        simp only [writtenPacket]
        rw [hpwq]
        push_cast
        ring
      · intro i hi
        rw [hq1] at hi
        rw [e4]
        rw [writePacket_other _ _ _ _ (by
          have hne : i ≠ (j - 1) / 31 := by omega
          exact_mod_cast fun hcast => hne (by exact_mod_cast hcast))]
        exact hfull i hi
      · intro i hi hi4
        rw [hq1] at hi
        rw [e4]
        rw [writePacket_other _ _ _ _ (by
          have hne : i ≠ (j - 1) / 31 := by omega
          exact_mod_cast fun hcast => hne (by exact_mod_cast hcast))]
        exact hgap i hi hi4
      · intro i t hi ht hlt
        rw [hq1] at hi
        rw [e4] at hlt ⊢
        by_cases hiq : i = (j - 1) / 31
        · rw [hiq] at hlt ⊢
          rw [writePacket_same] at hlt ⊢
          simp only [writtenPacket] at hlt ⊢
          by_cases htq :
            (t : Int) = (st.bufferSerial.packetBuffer (((j - 1) / 31 : Nat) : Int)).positionWrite
          · rw [htq, writeMem_same, hc]
            congr 1
            rw [hpwq] at htq
            omega
          · rw [writeMem_other _ _ _ _ htq]
            exact hdata _ t (le_refl _) ht (by omega)
        · rw [writePacket_other _ _ _ _ (by
            exact_mod_cast fun hcast => hiq (by exact_mod_cast hcast))] at hlt ⊢
          exact hdata i t hi ht hlt
    · -- the current packet is full: wrap, j = 31*(q+1)
      have hr31 : (j : Int) - 31 * ((j - 1) / 31 : Nat) = 31 := by omega
      have hpw32 : 32 ≤ (st.bufferSerial.packetBuffer (((j - 1) / 31 : Nat) : Int)).positionWrite := by
        rw [hpwq]; omega
      by_cases hovf : (j - 1) / 31 = 2
      · -- overflow: j = 93
        have hj93' : j = 93 := by omega
        have hchar := fetchStep_char_overflow st ((j - 1) / 31 : Nat) c now nowUs hcur hpw32
          (by rw [hts, hovf]; norm_num)
        obtain ⟨e1, e2, e3, e4, e5, e6, e7⟩ := hchar
        refine ⟨⟨by rw [e5, hdv], by rw [e6, hhs],
          Or.inr ⟨by omega, by omega, e1, e2, e3, ?_⟩⟩,
          by rw [e7, hdv, hhs]; rw [if_pos hj93']⟩
        rw [e4, writePacket_same]
        have hclean : (bufferCleanPacketBuffer st.bufferSerial.packetBuffer 4 0).positionWrite
            = 1 := by
          simp [bufferCleanPacketBuffer]
        simp only [hclean]
        omega
      · -- advance to packet q+1
        have hchar := fetchStep_char_advance st ((j - 1) / 31 : Nat) c now nowUs hcur hpw32
          (by rw [hts]; omega)
        obtain ⟨e1, e2, e3, e4, e5, e6, e7⟩ := hchar
        have hcast1 : (((j - 1) / 31 : Nat) : Int) + 1 = (((j + 1 - 1) / 31 : Nat) : Int) := by
          omega
        have hgap1 : (st.bufferSerial.packetBuffer ((((j - 1) / 31 : Nat)) + 1 : Int)).positionWrite
            = 1 := by
          have hg := hgap ((j - 1) / 31 + 1) (by omega) (by omega)
          rw [show ((((j - 1) / 31 + 1 : Nat)) : Int) = (((j - 1) / 31 : Nat) : Int) + 1 by
            push_cast; ring] at hg
          exact hg
        refine ⟨⟨by rw [e5, hdv], by rw [e6, hhs], Or.inl ⟨by omega, ?_, ?_, ?_, ?_, ?_, ?_, ?_⟩⟩,
          by rw [e7]; rw [if_neg (by omega)]⟩
        · rw [e1, hts]; omega
        · rw [e2]; exact hsent
        · rw [e3, hcast1]
        · rw [e4, ← hcast1, writePacket_same]
          simp only [writtenPacket]
          rw [hgap1]
          omega
        · intro i hi
          rw [e4]
          by_cases hiq : i = (j - 1) / 31 + 1
          · exfalso; omega
          · rw [writePacket_other _ _ _ _ (by
              intro hcast
              exact hiq (by
                have hci : (i : Int) = (((j - 1) / 31 + 1 : Nat) : Int) := by
                  rw [hcast]; push_cast; ring
                exact_mod_cast hci))]
            by_cases hiq2 : i = (j - 1) / 31
            · subst hiq2
              rw [hpwq]; omega
            · exact hfull i (by omega)
        · intro i hi hi4
          rw [e4]
          rw [writePacket_other _ _ _ _ (by
            intro hcast
            have hne : i ≠ (j - 1) / 31 + 1 := by omega
            exact hne (by
              have hci : (i : Int) = (((j - 1) / 31 + 1 : Nat) : Int) := by
                rw [hcast]; push_cast; ring
              exact_mod_cast hci))]
          exact hgap i (by omega) hi4
        · intro i t hi ht hlt
          rw [e4] at hlt ⊢
          by_cases hiq : i = (j - 1) / 31 + 1
          · subst hiq
            rw [show ((((j - 1) / 31 + 1 : Nat)) : Int) = (((j - 1) / 31 : Nat) : Int) + 1 by
              push_cast; ring] at hlt ⊢
            rw [writePacket_same] at hlt ⊢
            simp only [writtenPacket] at hlt ⊢
            have ht1 : t = 1 := by
              rw [hgap1] at hlt
              omega
            subst ht1
            rw [show ((1 : Nat) : Int) = (1 : Int) from rfl] at hlt ⊢
            rw [hgap1, writeMem_same, hc]
            congr 1
            omega
          · rw [writePacket_other _ _ _ _ (by
              intro hcast
              exact hiq (by
                have hci : (i : Int) = (((j - 1) / 31 + 1 : Nat) : Int) := by
                  rw [hcast]; push_cast; ring
                exact_mod_cast hci))] at hlt ⊢
            exact hdata i t (by omega) ht hlt
  · -- phase 2
    obtain ⟨hts, hsent, hcur, hpw0⟩ := hInv2
    have hchar := fetchStep_char_nowrap st 0 c now nowUs hcur (by rw [hpw0]; omega)
    obtain ⟨e1, e2, e3, e4, e5, e6, e7⟩ := hchar
    refine ⟨⟨by rw [e5, hdv], by rw [e6, hhs], Or.inr ⟨by omega, by omega, ?_, ?_, ?_, ?_⟩⟩,
      by rw [e7]; rw [if_neg (by omega)]⟩
    · rw [e1]; exact hts
    · rw [e2]; exact hsent
    · exact e3
    · rw [e4, writePacket_same]
      simp only [writtenPacket]
      rw [hpw0]
      omega

/-- Invariant propagation along the whole fetch loop, together with the
exact events it emits: the overflow signal appears exactly when the loop
crosses the 94-byte mark. -/
theorem fetchLoop_invA (dv hs : Bool) (full : List Nat) (now nowUs : Nat) :
    ∀ (rest : List Nat) (j : Nat) (st : RadioState),
    full.drop j = rest → j + rest.length ≤ 124 → FetchInvA dv hs full j st →
    FetchInvA dv hs full (j + rest.length) (bufferSerialFetchLoop st rest now nowUs).1 ∧
    (bufferSerialFetchLoop st rest now nowUs).2
        = (if j ≤ 93 ∧ 94 ≤ j + rest.length then overflowSignal dv hs else []) := by
  intro rest
  induction rest with
  | nil =>
    intro j st hdrop hlen hInv
    simp only [bufferSerialFetchLoop, List.length_nil, Nat.add_zero]
    exact ⟨hInv, by rw [if_neg (by omega)]⟩
  | cons c rest ih =>
    intro j st hdrop hlen hInv
    have hc : c = full.getD j 0 := by
      have h0 : (full.drop j)[0]? = some c := by rw [hdrop]; simp
      rw [List.getElem?_drop] at h0
      simp only [List.getD_eq_getElem?_getD, Nat.add_zero] at h0 ⊢
      rw [h0]
      rfl
    have hdrop' : full.drop (j + 1) = rest := by
      have : (full.drop j).drop 1 = rest := by rw [hdrop]; rfl
      rwa [List.drop_drop] at this
    have hlen' : j + 1 + rest.length ≤ 124 := by
      simp only [List.length_cons] at hlen
      omega
    have hstep := fetchStep_invA dv hs full j st c now nowUs hc (by omega) hInv
    have hih := ih (j + 1) (fetchStep st c now nowUs).1 hdrop' hlen' hstep.1
    constructor
    · have hlc : j + (c :: rest).length = j + 1 + rest.length := by
        simp only [List.length_cons]; omega
      rw [hlc]
      exact hih.1
    · show (fetchStep st c now nowUs).2
          ++ (bufferSerialFetchLoop (fetchStep st c now nowUs).1 rest now nowUs).2 = _
      rw [hstep.2, hih.2]
      by_cases h93 : j = 93
      · subst h93
        rw [if_pos rfl, if_neg (by omega), if_pos (by simp only [List.length_cons]; omega)]
        simp
      · rw [if_neg h93]
        simp only [List.nil_append, List.length_cons]
        by_cases hcross : j + 1 ≤ 93 ∧ 94 ≤ j + 1 + rest.length
        · rw [if_pos hcross, if_pos (by omega)]
        · rw [if_neg hcross, if_neg (by omega)]

theorem map_range_getD (l : List Nat) :
    ∀ (m s : Nat), s + m ≤ l.length →
    (List.range m).map (fun t => l.getD (s + t) 0) = (l.drop s).take m := by
  intro m
  induction m with
  | zero => intro s h; simp
  | succ m ih =>
    intro s h
    rw [List.range_succ_eq_map, List.map_cons, List.map_map]
    have h1 : ((fun t => l.getD (s + t) 0) ∘ Nat.succ) = fun t => l.getD (s + 1 + t) 0 := by
      funext t
      simp only [Function.comp]
      congr 1
      omega
    rw [h1, ih (s + 1) (by omega)]
    have hs : s < l.length := by omega
    rw [List.drop_eq_getElem_cons hs]
    rw [List.take_succ_cons]
    congr 1
    simp only [Nat.add_zero, List.getD_eq_getElem?_getD, List.getElem?_eq_getElem hs]
    rfl

theorem chunks_join : ∀ (q : Nat) (l : List Nat), 31 * q < l.length → l.length ≤ 31 * (q + 1) →
    (List.range (q + 1)).flatMap (fun i => (l.drop (31 * i)).take 31) = l := by
  intro q
  induction q with
  | zero =>
    intro l h1 h2
    simp only [List.range_succ_eq_map, List.range_zero, List.map_nil, List.flatMap_cons,
      List.flatMap_nil, List.append_nil, Nat.mul_zero, List.drop_zero]
    exact List.take_of_length_le (by omega)
  | succ q ih =>
    intro l h1 h2
    rw [List.range_succ_eq_map, List.flatMap_cons]
    have hmap : (List.map Nat.succ (List.range (q + 1))).flatMap
        (fun i => (l.drop (31 * i)).take 31)
        = (List.range (q + 1)).flatMap (fun i => ((l.drop 31).drop (31 * i)).take 31) := by
      simp only [List.flatMap, List.map_map]
      congr 1
      apply List.map_congr_left
      intro a _
      simp only [Function.comp]
      rw [List.drop_drop]
      congr 2
      omega
    rw [hmap, ih (l.drop 31) (by simp only [List.length_drop]; omega)
      (by simp only [List.length_drop]; omega)]
    simp only [Nat.mul_zero, List.drop_zero]
    exact List.take_append_drop 31 l

/-- Core of C3: from a clean serial buffer, ingesting `k ≤ 93` bytes
yields `ceil(k/31)` packets whose payloads reproduce the input. -/
theorem bufferSerialFetch_fragmentation (st : RadioState) (input : List Nat) (now nowUs : Nat)
    (hclean : serialClean st) (h31 : 31 < input.length) (h93 : input.length ≤ 93) :
    (bufferSerialFetch st input now nowUs).1.bufferSerial.numberOfPacketsToSend
        = (((input.length + 30) / 31 : Nat) : Int) ∧
    payloadBytes (bufferSerialFetch st input now nowUs).1 = input := by
  obtain ⟨hc1, hc2, hc3, hc4, hc5, hc6, hc7⟩ := hclean
  -- the initial bump from 0 to 1 packet
  have hfetch : bufferSerialFetch st input now nowUs
      = bufferSerialFetchLoop
          { st with bufferSerial := { st.bufferSerial with numberOfPacketsToSend := 1 } }
          input now nowUs := by
    rw [bufferSerialFetch, if_pos hc1]
  set st1 : RadioState :=
    { st with bufferSerial := { st.bufferSerial with numberOfPacketsToSend := 1 } } with hst1
  have hInv0 : FetchInvA st.isDevice st.isHost input 0 st1 := by
    refine ⟨rfl, rfl, Or.inl ⟨by omega, ?_, ?_, ?_, ?_, ?_, ?_, ?_⟩⟩
    · show (1 : Int) = ((0 - 1) / 31 : Nat) + 1
      norm_num
    · exact hc2
    · show st.currentPacketBufferSerial = _
      rw [hc3]
      norm_num
    · show (st.bufferSerial.packetBuffer (((0 - 1) / 31 : Nat) : Int)).positionWrite = _
      norm_num
      exact hc4
    · intro i hi
      omega
    · intro i hi hi4
      show (st.bufferSerial.packetBuffer (i : Int)).positionWrite = 1
      interval_cases i
      · exact hc5
      · exact hc6
      · exact hc7
    · intro i t hi ht hlt
      exfalso
      have hi0 : i = 0 := by omega
      subst hi0
      norm_num at hlt
      rw [hc4] at hlt
      omega
  have hloop := fetchLoop_invA st.isDevice st.isHost input now nowUs input 0 st1 rfl
    (by omega) hInv0
  rw [hfetch]
  obtain ⟨⟨hdv, hhs, hphase⟩, hevs⟩ := hloop
  rcases hphase with ⟨hle, hInv⟩ | ⟨hge, _, _⟩
  · obtain ⟨hts, hsent, hcur, hpwq, hfull, hgap, hdata⟩ := hInv
    simp only [Nat.zero_add] at hts hcur hpwq hfull hgap hdata
    constructor
    · rw [hts]
      congr 1
      omega
    · -- payload reconstruction
      set R := (bufferSerialFetchLoop st1 input now nowUs).1 with hR
      set k := input.length with hk
      set q := (k - 1) / 31 with hq
      have htoNat : R.bufferSerial.numberOfPacketsToSend.toNat = q + 1 := by
        rw [hts]; omega
      rw [payloadBytes, htoNat]
      have hinner : ∀ i ∈ List.range (q + 1),
          (List.range ((R.bufferSerial.packetBuffer (i : Int)).positionWrite - 1).toNat).map
            (fun (t : Nat) => (R.bufferSerial.packetBuffer (i : Int)).data ((t : Int) + 1))
          = (input.drop (31 * i)).take 31 := by
        intro i hmem
        have hi : i ≤ q := by
          have := List.mem_range.mp hmem
          omega
        by_cases hiq : i = q
        · -- last packet: k - 31*q payload bytes
          rw [hiq]
          have hcount : ((R.bufferSerial.packetBuffer (q : Int)).positionWrite - 1).toNat
              = k - 31 * q := by
            rw [hpwq]
            omega
          rw [hcount]
          have hstep1 : (List.range (k - 31 * q)).map
              (fun (t : Nat) => (R.bufferSerial.packetBuffer (q : Int)).data ((t : Int) + 1))
              = (List.range (k - 31 * q)).map (fun t => input.getD (31 * q + t) 0) := by
            apply List.map_congr_left
            intro t hmem2
            have htk : t < k - 31 * q := List.mem_range.mp hmem2
            have hcast : ((t : Int) + 1) = (((t + 1 : Nat)) : Int) := by push_cast; ring
            rw [hcast]
            have hd := hdata q (t + 1) (le_refl _) (by omega)
              (by rw [hpwq]; push_cast; omega)
            rw [hd]
            have harg : 31 * q + (t + 1) - 1 = 31 * q + t := by omega
            rw [harg]
          rw [hstep1, map_range_getD input (k - 31 * q) (31 * q) (by omega)]
          have hlen1 : (input.drop (31 * q)).length = k - 31 * q := by
            have hld := List.length_drop (31 * q) input
            omega
          have htake1 : (input.drop (31 * q)).take (k - 31 * q) = input.drop (31 * q) :=
            List.take_of_length_le (by omega)
          have htake2 : (input.drop (31 * q)).take 31 = input.drop (31 * q) :=
            List.take_of_length_le (by omega)
          rw [htake1, htake2]
        · -- full packet: 31 payload bytes
          have hilt : i < q := by omega
          have hcount : ((R.bufferSerial.packetBuffer (i : Int)).positionWrite - 1).toNat = 31 := by
            rw [hfull i hilt]
            decide
          rw [hcount]
          have hstep1 : (List.range 31).map
              (fun (t : Nat) => (R.bufferSerial.packetBuffer (i : Int)).data ((t : Int) + 1))
              = (List.range 31).map (fun t => input.getD (31 * i + t) 0) := by
            apply List.map_congr_left
            intro t hmem2
            have htk : t < 31 := List.mem_range.mp hmem2
            have hcast : ((t : Int) + 1) = (((t + 1 : Nat)) : Int) := by push_cast; ring
            rw [hcast]
            have hd := hdata i (t + 1) (by omega) (by omega)
              (by rw [hfull i hilt]; push_cast; omega)
            rw [hd]
            have harg : 31 * i + (t + 1) - 1 = 31 * i + t := by omega
            rw [harg]
          rw [hstep1, map_range_getD input 31 (31 * i) (by omega)]
      calc (List.range (q + 1)).flatMap
            (fun (i : Nat) =>
              (List.range ((R.bufferSerial.packetBuffer (i : Int)).positionWrite - 1).toNat).map
                (fun (t : Nat) => (R.bufferSerial.packetBuffer (i : Int)).data ((t : Int) + 1)))
          = (List.range (q + 1)).flatMap (fun i => (input.drop (31 * i)).take 31) := by
            simp only [List.flatMap]
            congr 1
            exact List.map_congr_left hinner
        _ = input := chunks_join q input (by omega) (by omega)
  · omega

/-- Core of C6 (amended): an input exceeding the usable capacity by at
most 31 bytes triggers the overflow path exactly once and leaves the
Buffer fully reset. -/
theorem bufferSerialFetch_overflow (st : RadioState) (input : List Nat) (now nowUs : Nat)
    (hclean : serialClean st) (hrole : st.isDevice = true ∨ st.isHost = true)
    (h93 : 93 < input.length) (h124 : input.length ≤ 124) :
    (bufferSerialFetch st input now nowUs).1.bufferSerial.numberOfPacketsToSend = 0 ∧
    (bufferSerialFetch st input now nowUs).1.bufferSerial.numberOfPacketsSent = 0 ∧
    (bufferSerialFetch st input now nowUs).1.currentPacketBufferSerial = some 0 ∧
    ((bufferSerialFetch st input now nowUs).2.filter isOverflowSignal).length = 1 := by
  obtain ⟨hc1, hc2, hc3, hc4, hc5, hc6, hc7⟩ := hclean
  have hfetch : bufferSerialFetch st input now nowUs
      = bufferSerialFetchLoop
          { st with bufferSerial := { st.bufferSerial with numberOfPacketsToSend := 1 } }
          input now nowUs := by
    rw [bufferSerialFetch, if_pos hc1]
  set st1 : RadioState :=
    { st with bufferSerial := { st.bufferSerial with numberOfPacketsToSend := 1 } } with hst1
  have hInv0 : FetchInvA st.isDevice st.isHost input 0 st1 := by
    refine ⟨rfl, rfl, Or.inl ⟨by omega, ?_, ?_, ?_, ?_, ?_, ?_, ?_⟩⟩
    · show (1 : Int) = ((0 - 1) / 31 : Nat) + 1
      norm_num
    · exact hc2
    · show st.currentPacketBufferSerial = _
      rw [hc3]
      norm_num
    · show (st.bufferSerial.packetBuffer (((0 - 1) / 31 : Nat) : Int)).positionWrite = _
      norm_num
      exact hc4
    · intro i hi
      omega
    · intro i hi hi4
      show (st.bufferSerial.packetBuffer (i : Int)).positionWrite = 1
      interval_cases i
      · exact hc5
      · exact hc6
      · exact hc7
    · intro i t hi ht hlt
      exfalso
      have hi0 : i = 0 := by omega
      subst hi0
      norm_num at hlt
      rw [hc4] at hlt
      omega
  have hloop := fetchLoop_invA st.isDevice st.isHost input now nowUs input 0 st1 rfl
    (by omega) hInv0
  rw [hfetch]
  obtain ⟨⟨hdv, hhs, hphase⟩, hevs⟩ := hloop
  rcases hphase with ⟨hle, _⟩ | ⟨_, _, hInv2⟩
  · omega
  · obtain ⟨hts, hsent, hcur, _⟩ := hInv2
    refine ⟨hts, hsent, hcur, ?_⟩
    rw [hevs, if_pos (by omega)]
    rcases hrole with hdev | hhost
    · rw [hdev]
      simp [overflowSignal, isOverflowSignal]
    · rw [hhost]
      by_cases hdev2 : st.isDevice = true
      · rw [hdev2]
        simp [overflowSignal, isOverflowSignal]
      · have : st.isDevice = false := by
          cases h : st.isDevice
          · rfl
          · exact absurd h hdev2
        rw [this]
        simp [overflowSignal, isOverflowSignal]

/-! ## C3 and C6 -/

/-- C3 counterexample. The spec's Buffer has capacity N = 4 packets
(124 payload bytes), so a 94-byte stream "fits within the buffer
capacity"; the claim then demands `numberOfPacketsToSend = ceil(94/31) = 4`
after ingestion.  The code instead takes its overflow path as soon as a
4th packet is needed, resets the buffer and re-ingests the tail, ending
with `numberOfPacketsToSend = 0`. -/
theorem c3_counterexample :
    serialClean (mkCleanState false) ∧
    (94 + 30) / 31 = 4 ∧
    (bufferSerialFetch (mkCleanState false) (List.replicate 94 0) 0
        0).1.bufferSerial.numberOfPacketsToSend = 0 := by
  have h := bufferSerialFetch_overflow (mkCleanState false) (List.replicate 94 0) 0 0
    (by decide) (Or.inr (by decide)) (by simp) (by simp)
  exact ⟨by decide, by norm_num, h.1⟩

/-- C3 (amended). Starting from a clean bufferSerial, ingesting a
local-transport byte stream of `k` bytes with `31 < k` and `k` within the
code's usable capacity of `31*(N-1) = 93` bytes leaves
`numberOfPacketsToSend = ceil(k/31)`, and concatenating each packet's
payload bytes (positions `1..positionWrite-1`) in packet order reproduces
the original `k` bytes exactly. -/
theorem c3_fragmentation (st : RadioState) (input : List Nat) (now nowUs : Nat)
    (hclean : serialClean st) (h31 : 31 < input.length) (hcap : input.length ≤ 93) :
    (bufferSerialFetch st input now nowUs).1.bufferSerial.numberOfPacketsToSend
        = (((input.length + 30) / 31 : Nat) : Int) ∧
    payloadBytes (bufferSerialFetch st input now nowUs).1 = input :=
  bufferSerialFetch_fragmentation st input now nowUs hclean h31 hcap

/-- Witness for C3 (amended) on a concrete 32-byte stream. -/
theorem c3_fragmentation_witness :
    (bufferSerialFetch (mkCleanState false) (List.range 32) 0
        0).1.bufferSerial.numberOfPacketsToSend = 2 ∧
    payloadBytes (bufferSerialFetch (mkCleanState false) (List.range 32) 0 0).1
      = List.range 32 := by
  have h := c3_fragmentation (mkCleanState false) (List.range 32) 0 0 (by decide)
    (by simp) (by simp)
  refine ⟨?_, h.2⟩
  rw [h.1]
  norm_num

set_option maxRecDepth 40000 in
/-- C6 counterexample. A 125-byte pass exceeds the buffer capacity of
N = 4 packets under every reading of "capacity", yet the pass does not
leave `numberOfPacketsToSend = 0`: after the overflow reset the
remaining bytes re-fill the buffer past one packet, ending at 1. -/
theorem c6_counterexample :
    ((bufferSerialFetch (mkCleanState false) (List.replicate 125 0) 0 0).2.filter
        isOverflowSignal).length = 1 ∧
    (bufferSerialFetch (mkCleanState false) (List.replicate 125 0) 0
        0).1.bufferSerial.numberOfPacketsToSend = 1 := by
  constructor
  · decide
  · decide

/-- C6 (amended). For an ingestion pass from a clean buffer whose input
exceeds the code's usable capacity (93 bytes) by at most 31 bytes, the
overflow path fires exactly once: the Buffer ends fully reset
(`numberOfPacketsToSend = 0`, counters cleared, cursor back on packet 0)
and the overflow signal - the 1-byte DEVICE_SERIAL_OVERFLOW radio code on
the Device, the report to the local transport on the Host - is emitted
exactly once.  Larger inputs fire the path more than once or leave the
Buffer non-empty (see the counterexample). -/
theorem c6_overflow_once (st : RadioState) (input : List Nat) (now nowUs : Nat)
    (hclean : serialClean st) (hrole : st.isDevice = true ∨ st.isHost = true)
    (h93 : 93 < input.length) (h124 : input.length ≤ 124) :
    (bufferSerialFetch st input now nowUs).1.bufferSerial.numberOfPacketsToSend = 0 ∧
    (bufferSerialFetch st input now nowUs).1.bufferSerial.numberOfPacketsSent = 0 ∧
    (bufferSerialFetch st input now nowUs).1.currentPacketBufferSerial = some 0 ∧
    ((bufferSerialFetch st input now nowUs).2.filter isOverflowSignal).length = 1 :=
  bufferSerialFetch_overflow st input now nowUs hclean hrole h93 h124

/-- Witness for C6 (amended) on a concrete 94-byte Device pass. -/
theorem c6_overflow_once_witness :
    (bufferSerialFetch (mkCleanState true) (List.replicate 94 1) 0
        0).1.bufferSerial.numberOfPacketsToSend = 0 ∧
    ((bufferSerialFetch (mkCleanState true) (List.replicate 94 1) 0 0).2.filter
        isOverflowSignal).length = 1 := by
  have h := c6_overflow_once (mkCleanState true) (List.replicate 94 1) 0 0 (by decide)
    (Or.inl (by decide)) (by simp) (by simp)
  exact ⟨h.1, h.2.2.2⟩

/-! ## Buffer invariant under ingestion (C1, fetch part) -/

theorem fetchStepWrap_none (st : RadioState)
    (hcur : st.currentPacketBufferSerial = none) :
    fetchStepWrap st = (st, []) := by
  have hderef : derefSerial st = nullPacket := by
    simp [derefSerial, hcur]
  rw [fetchStepWrap, hderef]
  rw [if_neg (show ¬(nullPacket.positionWrite ≥ OPENBCI_MAX_PACKET_SIZE_BYTES) by decide)]

theorem fetchStepStore_none (st : RadioState) (c nowUs : Nat)
    (hcur : st.currentPacketBufferSerial = none) :
    (fetchStepStore st c nowUs).1 = st := by
  rw [fetchStepStore, hcur]

theorem fetchStep_bufferInvariant (st : RadioState) (c now nowUs : Nat)
    (h : bufferInvariant st.bufferSerial) :
    bufferInvariant (fetchStep st c now nowUs).1.bufferSerial := by
  cases hcur : st.currentPacketBufferSerial with
  | none =>
    rw [fetchStep_eq, fetchStepWrap_none st hcur]
    show bufferInvariant (fetchStepTimers (fetchStepStore st c nowUs).1 now).bufferSerial
    rw [fetchStepTimers_bufferSerial, fetchStepStore_none st c nowUs hcur]
    exact h
  | some q =>
    simp only [bufferInvariant, OPENBCI_MAX_NUMBER_OF_BUFFERS] at h ⊢
    by_cases hpw : (st.bufferSerial.packetBuffer q).positionWrite < 32
    · obtain ⟨e1, e2, -⟩ := fetchStep_char_nowrap st q c now nowUs hcur hpw
      rw [e1, e2]
      omega
    · by_cases hts : st.bufferSerial.numberOfPacketsToSend + 1 < 4
      · obtain ⟨e1, e2, -⟩ := fetchStep_char_advance st q c now nowUs hcur (by omega) hts
        rw [e1, e2]
        omega
      · obtain ⟨e1, e2, -⟩ := fetchStep_char_overflow st q c now nowUs hcur (by omega) (by omega)
        rw [e1, e2]
        omega

theorem fetchLoop_bufferInvariant (now nowUs : Nat) :
    ∀ (rest : List Nat) (st : RadioState), bufferInvariant st.bufferSerial →
    bufferInvariant (bufferSerialFetchLoop st rest now nowUs).1.bufferSerial := by
  intro rest
  induction rest with
  | nil => intro st h; exact h
  | cons c rest ih =>
    intro st h
    exact ih (fetchStep st c now nowUs).1 (fetchStep_bufferInvariant st c now nowUs h)

theorem bufferSerialFetch_bufferInvariant (st : RadioState) (input : List Nat) (now nowUs : Nat)
    (h : bufferInvariant st.bufferSerial) :
    bufferInvariant (bufferSerialFetch st input now nowUs).1.bufferSerial := by
  rw [bufferSerialFetch]
  split_ifs with h0
  · apply fetchLoop_bufferInvariant
    simp only [bufferInvariant, OPENBCI_MAX_NUMBER_OF_BUFFERS] at h
    show bufferInvariant { (st.bufferSerial) with numberOfPacketsToSend := 1 }
    refine ⟨?_, ?_, ?_⟩
    · show (0 : Int) ≤ st.bufferSerial.numberOfPacketsSent
      omega
    · show st.bufferSerial.numberOfPacketsSent ≤ 1
      omega
    · show (1 : Int) ≤ OPENBCI_MAX_NUMBER_OF_BUFFERS
      decide
  · exact fetchLoop_bufferInvariant now nowUs input st h

/-! ## C1: the Buffer invariant under the receive handler -/

theorem foldl_preserves {β γ : Type} (f : RadioState → γ) (g : RadioState → β → RadioState)
    (hg : ∀ s b, f (g s b) = f s) :
    ∀ (l : List β) (s : RadioState), f (l.foldl g s) = f s := by
  intro l
  induction l with
  | nil => intro s; rfl
  | cons b l ih =>
    intro s
    rw [List.foldl_cons, ih, hg]

theorem bufferRadioAddByte_bufferSerial (st : RadioState) (b : Nat) :
    (bufferRadioAddByte st b).bufferSerial = st.bufferSerial := by
  rw [bufferRadioAddByte]; split_ifs <;> rfl

theorem bufferRadioAddByte_isHost (st : RadioState) (b : Nat) :
    (bufferRadioAddByte st b).isHost = st.isHost := by
  rw [bufferRadioAddByte]; split_ifs <;> rfl

theorem bufferRadioAdd_bufferSerial (st : RadioState) (mem : Int → Nat) (len : Int) :
    (bufferRadioAdd st mem len).bufferSerial = st.bufferSerial :=
  foldl_preserves RadioState.bufferSerial _ (fun s k => bufferRadioAddByte_bufferSerial s _) _ st

theorem bufferRadioAdd_isHost (st : RadioState) (mem : Int → Nat) (len : Int) :
    (bufferRadioAdd st mem len).isHost = st.isHost :=
  foldl_preserves RadioState.isHost _ (fun s k => bufferRadioAddByte_isHost s _) _ st

theorem bufferAddStreamPacketWrap_bufferSerial (st : RadioState) :
    (bufferAddStreamPacketWrap st).bufferSerial = st.bufferSerial := by
  simp only [bufferAddStreamPacketWrap]
  split_ifs <;> rfl

theorem bufferAddStreamPacketWrap_isHost (st : RadioState) :
    (bufferAddStreamPacketWrap st).isHost = st.isHost := by
  simp only [bufferAddStreamPacketWrap]
  split_ifs <;> rfl

theorem bufferAddStreamPacketByte_bufferSerial (st : RadioState) (b : Nat) :
    (bufferAddStreamPacketByte st b).bufferSerial = st.bufferSerial := by
  show (match (bufferAddStreamPacketWrap st).currentPacketBufferStreamPacket with
    | some i =>
      let p := (bufferAddStreamPacketWrap st).bufferStreamPackets.packetBuffer i
      let p := { p with
        data := writeMem p.data p.positionWrite b,
        positionWrite := p.positionWrite + 1 }
      { (bufferAddStreamPacketWrap st) with bufferStreamPackets :=
        { (bufferAddStreamPacketWrap st).bufferStreamPackets with
          packetBuffer :=
            writePacket (bufferAddStreamPacketWrap st).bufferStreamPackets.packetBuffer i p } }
    | none => bufferAddStreamPacketWrap st).bufferSerial = st.bufferSerial
  cases hc : (bufferAddStreamPacketWrap st).currentPacketBufferStreamPacket with
  | none => exact bufferAddStreamPacketWrap_bufferSerial st
  | some i => exact bufferAddStreamPacketWrap_bufferSerial st

theorem bufferAddStreamPacketByte_isHost (st : RadioState) (b : Nat) :
    (bufferAddStreamPacketByte st b).isHost = st.isHost := by
  show (match (bufferAddStreamPacketWrap st).currentPacketBufferStreamPacket with
    | some i =>
      let p := (bufferAddStreamPacketWrap st).bufferStreamPackets.packetBuffer i
      let p := { p with
        data := writeMem p.data p.positionWrite b,
        positionWrite := p.positionWrite + 1 }
      { (bufferAddStreamPacketWrap st) with bufferStreamPackets :=
        { (bufferAddStreamPacketWrap st).bufferStreamPackets with
          packetBuffer :=
            writePacket (bufferAddStreamPacketWrap st).bufferStreamPackets.packetBuffer i p } }
    | none => bufferAddStreamPacketWrap st).isHost = st.isHost
  cases hc : (bufferAddStreamPacketWrap st).currentPacketBufferStreamPacket with
  | none => exact bufferAddStreamPacketWrap_isHost st
  | some i => exact bufferAddStreamPacketWrap_isHost st

theorem bufferAddStreamPacket_bufferSerial (st : RadioState) (mem : Int → Nat) (length : Int) :
    (bufferAddStreamPacket st mem length).bufferSerial = st.bufferSerial := by
  rw [bufferAddStreamPacket]
  split_ifs with h
  · exact foldl_preserves RadioState.bufferSerial _
      (fun s b => bufferAddStreamPacketByte_bufferSerial s _) _ _
  · exact foldl_preserves RadioState.bufferSerial _
      (fun s b => bufferAddStreamPacketByte_bufferSerial s _) _ _

theorem bufferAddStreamPacket_isHost (st : RadioState) (mem : Int → Nat) (length : Int) :
    (bufferAddStreamPacket st mem length).isHost = st.isHost := by
  rw [bufferAddStreamPacket]
  split_ifs with h
  · exact foldl_preserves RadioState.isHost _
      (fun s b => bufferAddStreamPacketByte_isHost s _) _ _
  · exact foldl_preserves RadioState.isHost _
      (fun s b => bufferAddStreamPacketByte_isHost s _) _ _

theorem setChannelNumber_bufferSerial (st : RadioState) (ch : Nat) (eraseRc writeRc : Int) :
    (setChannelNumber st ch eraseRc writeRc).1.bufferSerial = st.bufferSerial := by
  rw [setChannelNumber]
  split_ifs <;> rfl

theorem willSendBlock_counters (st : RadioState) (mem : Int → Nat) (now : Nat)
    (h : ¬(st.isHost = true ∧ st.bufferSerial.numberOfPacketsToSend = 1 ∧
      st.bufferSerial.numberOfPacketsSent = 0 ∧
      (st.bufferSerial.packetBuffer 0).positionWrite = 2 ∧
      (st.bufferSerial.packetBuffer 0).data 1 = OPENBCI_HOST_CHANNEL_QUERY)) :
    (willSendBlock st mem now).1.bufferSerial.numberOfPacketsToSend =
      st.bufferSerial.numberOfPacketsToSend ∧
    (willSendBlock st mem now).1.bufferSerial.numberOfPacketsSent =
      st.bufferSerial.numberOfPacketsSent + 1 := by
  simp only [willSendBlock]
  split_ifs with h1 h2 h3 h4 h5 h6 h7 h8 h9
  all_goals try exact ⟨rfl, rfl⟩
  rw [writeMem_other _ _ _ _ (by decide : (1 : Int) ≠ 0)] at h5
  have hsent : st.bufferSerial.numberOfPacketsSent = 0 := by omega
  rw [hsent] at h3 h5
  exact absurd ⟨h1, h2.1, hsent, h3, h5⟩ h

theorem C1Mid_false {st0 s : RadioState} {evs : List Event}
    (h : bufferInvariant s.bufferSerial) : C1Mid st0 (s, evs, false) :=
  ⟨fun _ => h, fun hco => nomatch hco⟩

theorem C1Mid_true {st0 s : RadioState} {evs : List Event}
    (h1 : s.isHost = st0.isHost)
    (h2 : s.bufferSerial.packetBuffer = st0.bufferSerial.packetBuffer)
    (h3 : s.bufferSerial.numberOfPacketsToSend = st0.bufferSerial.numberOfPacketsToSend)
    (h4 : -1 ≤ s.bufferSerial.numberOfPacketsSent)
    (h5 : s.bufferSerial.numberOfPacketsSent + 1 ≤ s.bufferSerial.numberOfPacketsToSend) :
    C1Mid st0 (s, evs, true) := by
  constructor
  · intro hco
    exact Bool.noConfusion hco
  · intro _
    exact ⟨h1, h2, h3, h4, h5⟩

theorem onReceiveGoodRoute_bufferSerial (st : RadioState) (mem : Int → Nat) (len : Int)
    (glp : Bool) : (onReceiveGoodRoute st mem len glp).bufferSerial = st.bufferSerial := by
  simp only [onReceiveGoodRoute]
  split_ifs with h1 h2
  · exact bufferAddStreamPacket_bufferSerial st mem len
  · exact bufferRadioAdd_bufferSerial st mem len
  · exact bufferRadioAdd_bufferSerial st mem len

theorem onReceiveGoodRoute_isHost (st : RadioState) (mem : Int → Nat) (len : Int)
    (glp : Bool) : (onReceiveGoodRoute st mem len glp).isHost = st.isHost := by
  simp only [onReceiveGoodRoute]
  split_ifs with h1 h2
  · exact bufferAddStreamPacket_isHost st mem len
  · exact bufferRadioAdd_isHost st mem len
  · exact bufferRadioAdd_isHost st mem len

theorem onReceiveGoodTail_c1 (st0 st : RadioState) (mem : Int → Nat) (len : Int) (now : Nat)
    (evs0 : List Event) (glp : Bool)
    (hbs : st.bufferSerial = st0.bufferSerial) (hih : st.isHost = st0.isHost)
    (hInv : bufferInvariant st0.bufferSerial) :
    C1Mid st0 (onReceiveGoodTail st mem len now evs0 glp) := by
  simp only [onReceiveGoodTail]
  set s1 : RadioState := onReceiveGoodRoute st mem len glp with hs1
  have hb1 : s1.bufferSerial = st0.bufferSerial := by
    rw [hs1, onReceiveGoodRoute_bufferSerial, hbs]
  have hh1 : s1.isHost = st0.isHost := by
    rw [hs1, onReceiveGoodRoute_isHost, hih]
  obtain ⟨hi1, hi2, hi3⟩ := hInv
  split_ifs with h1 h2 h3 h4
  · rw [hb1] at h1
    refine C1Mid_true hh1 ?_ ?_ ?_ ?_
    · rw [hb1]
    · rw [hb1]
    · rw [hb1]; omega
    · rw [hb1]; omega
  · refine C1Mid_false ?_
    rw [hb1]
    exact ⟨hi1, hi2, hi3⟩
  · refine C1Mid_false ?_
    refine ⟨?_, ?_, ?_⟩
    · show (0 : Int) ≤ 0
      omega
    · show (0 : Int) ≤ 0
      omega
    · show (0 : Int) ≤ OPENBCI_MAX_NUMBER_OF_BUFFERS
      decide
  · refine C1Mid_false ?_
    show bufferInvariant s1.bufferSerial
    rw [hb1]
    exact ⟨hi1, hi2, hi3⟩
  · refine C1Mid_false ?_
    rw [hb1]
    exact ⟨hi1, hi2, hi3⟩

theorem onReceiveBadTail_c1 (st0 st : RadioState) (now : Nat) (evs : List Event) (msg : Nat)
    (hbs : st.bufferSerial = st0.bufferSerial)
    (hInv : bufferInvariant st0.bufferSerial) :
    C1Mid st0 (onReceiveBadTail st now evs msg) := by
  simp only [onReceiveBadTail]
  split_ifs with h
  · refine C1Mid_false ?_
    rw [hbs]
    exact hInv
  · refine C1Mid_false ?_
    show bufferInvariant st.bufferSerial
    rw [hbs]
    exact hInv

theorem onReceiveLen1_c1 (st : RadioState) (mem : Int → Nat) (now : Nat) (eraseRc writeRc : Int)
    (hInv : bufferInvariant st.bufferSerial)
    (hMissed : st.isWaitingForNewChannelNumber = false → mem 0 = ORPM_PACKET_MISSED →
      1 ≤ st.bufferSerial.numberOfPacketsToSend) :
    C1Mid st (onReceiveLen1 st mem now eraseRc writeRc) := by
  obtain ⟨hi1, hi2, hi3⟩ := hInv
  simp only [onReceiveLen1]
  split_ifs with h1 h2 h3 h4 h5 h6 h7 h8 h9
  · refine C1Mid_false ?_
    show bufferInvariant (setChannelNumber
      { st with isWaitingForNewChannelNumber := false, timeOfLastPoll := now }
      (mem 0) eraseRc writeRc).1.bufferSerial
    rw [setChannelNumber_bufferSerial]
    exact ⟨hi1, hi2, hi3⟩
  · refine C1Mid_false ?_
    show bufferInvariant (setChannelNumber
      { st with isWaitingForNewChannelNumber := false, timeOfLastPoll := now }
      (mem 0) eraseRc writeRc).1.bufferSerial
    rw [setChannelNumber_bufferSerial]
    exact ⟨hi1, hi2, hi3⟩
  · refine C1Mid_true rfl rfl rfl ?_ ?_
    · show -1 ≤ st.bufferSerial.numberOfPacketsSent - 1
      omega
    · show st.bufferSerial.numberOfPacketsSent - 1 + 1 ≤ st.bufferSerial.numberOfPacketsToSend
      omega
  · refine C1Mid_true rfl rfl rfl ?_ ?_
    · show (-1 : Int) ≤ 0
      omega
    · show (0 : Int) + 1 ≤ st.bufferSerial.numberOfPacketsToSend
      have := hMissed (Bool.eq_false_iff.mpr h1) h4
      omega
  · exact C1Mid_false ⟨hi1, hi2, hi3⟩
  · exact C1Mid_false ⟨hi1, hi2, hi3⟩
  · refine C1Mid_false ?_
    show bufferInvariant (setChannelNumber st st.radioChannel eraseRc writeRc).1.bufferSerial
    rw [setChannelNumber_bufferSerial]
    exact ⟨hi1, hi2, hi3⟩
  · exact C1Mid_false ⟨hi1, hi2, hi3⟩
  · exact C1Mid_false ⟨hi1, hi2, hi3⟩
  · exact C1Mid_false ⟨hi1, hi2, hi3⟩

theorem onReceivePayload_c1 (st : RadioState) (mem : Int → Nat) (len : Int) (now : Nat)
    (hInv : bufferInvariant st.bufferSerial) :
    C1Mid st (onReceivePayload st mem len now) := by
  simp only [onReceivePayload]
  generalize (if st.verbosePrintouts = true then
    [Event.serialPrint "R<-",
     Event.serialPrint (toString (byteIdGetPacketNumber (mem 0)) ++ "\n")]
    else ([] : List Event)) = evs0
  split_ifs with h1 h2 h3 h4
  · exact onReceiveGoodTail_c1 st st mem len now _ _ rfl rfl hInv
  · exact onReceiveGoodTail_c1 st _ mem len now _ _ rfl rfl hInv
  · exact onReceiveGoodTail_c1 st _ mem len now _ _ rfl rfl hInv
  · exact onReceiveBadTail_c1 st _ now _ _ rfl hInv
  · exact onReceiveBadTail_c1 st st now _ _ rfl hInv

theorem onReceiveAck_c1 (st : RadioState) (now : Nat)
    (hInv : bufferInvariant st.bufferSerial) :
    C1Mid st (onReceiveAck st now) := by
  obtain ⟨hi1, hi2, hi3⟩ := hInv
  simp only [onReceiveAck]
  split_ifs with h1 h2 h3 h4
  · exact C1Mid_false ⟨hi1, hi2, hi3⟩
  · refine C1Mid_true rfl rfl rfl ?_ ?_
    · omega
    · omega
  · exact C1Mid_false ⟨hi1, hi2, hi3⟩
  · refine C1Mid_false ?_
    refine ⟨?_, ?_, ?_⟩
    · show (0 : Int) ≤ 0
      omega
    · show (0 : Int) ≤ 0
      omega
    · show (0 : Int) ≤ OPENBCI_MAX_NUMBER_OF_BUFFERS
      decide
  · exact C1Mid_false ⟨hi1, hi2, hi3⟩

theorem c1_main_aux (st1 : RadioState) (mem : Int → Nat) (len : Int) (now : Nat)
    (eraseRc writeRc : Int)
    (hInv : bufferInvariant st1.bufferSerial)
    (hMissed : len = 1 → st1.isWaitingForNewChannelNumber = false →
      mem 0 = ORPM_PACKET_MISSED → 1 ≤ st1.bufferSerial.numberOfPacketsToSend)
    (hQuery : ¬(st1.isHost = true ∧ st1.bufferSerial.numberOfPacketsToSend = 1 ∧
      (st1.bufferSerial.packetBuffer 0).positionWrite = 2 ∧
      (st1.bufferSerial.packetBuffer 0).data 1 = OPENBCI_HOST_CHANNEL_QUERY)) :
    bufferInvariant
      (onReceiveFinish st1 mem now (onReceiveDispatch st1 mem len now eraseRc writeRc)).1.bufferSerial := by
  have hmid : C1Mid st1 (onReceiveDispatch st1 mem len now eraseRc writeRc) := by
    rw [onReceiveDispatch]
    split_ifs with h1 h2
    · exact onReceiveLen1_c1 st1 mem now eraseRc writeRc hInv (hMissed h1)
    · exact onReceivePayload_c1 st1 mem len now hInv
    · exact onReceiveAck_c1 st1 now hInv
  set d := onReceiveDispatch st1 mem len now eraseRc writeRc with hd
  rw [onReceiveFinish]
  cases hfl : d.2.2 with
  | false =>
    rw [if_neg (show ¬(false = true) by decide)]
    exact hmid.1 hfl
  | true =>
    rw [if_pos (rfl : true = true)]
    obtain ⟨hh, hpb, hts, hsl, hsu⟩ := hmid.2 hfl
    have hw := willSendBlock_counters d.1 mem now (by
      rintro ⟨q1, q2, q3, q4, q5⟩
      refine hQuery ⟨?_, ?_, ?_, ?_⟩
      · rw [← hh]; exact q1
      · rw [← hts]; exact q2
      · rw [← hpb]; exact q4
      · rw [← hpb]; exact q5)
    obtain ⟨hi1, hi2, hi3⟩ := hInv
    refine ⟨?_, ?_, ?_⟩
    · show 0 ≤ (willSendBlock d.1 mem now).1.bufferSerial.numberOfPacketsSent
      rw [hw.2]
      omega
    · show (willSendBlock d.1 mem now).1.bufferSerial.numberOfPacketsSent ≤
        (willSendBlock d.1 mem now).1.bufferSerial.numberOfPacketsToSend
      rw [hw.1, hw.2]
      omega
    · show (willSendBlock d.1 mem now).1.bufferSerial.numberOfPacketsToSend ≤
        OPENBCI_MAX_NUMBER_OF_BUFFERS
      rw [hw.1, hts]
      exact hi3

/-- C1 (amended): the radio receive handler preserves the Buffer
invariant `0 ≤ numberOfPacketsSent ≤ numberOfPacketsToSend ≤ N` for
every input length, and so does the serial ingestion pass — provided
(a) an `ORPM_PACKET_MISSED` control byte does not arrive while the
serial buffer holds no packets, and (b) the state is not a Host whose
single pending packet is a channel-query command, whose send path resets
the buffer and then increments `numberOfPacketsSent` past it.  Without
(a) and (b) the invariant is violated (see the counterexample). -/
theorem c1_buffer_invariant (st st2 : RadioState) (data input : List Nat) (len : Int)
    (now now2 nowUs : Nat) (eraseRc writeRc : Int)
    (hInv : bufferInvariant st.bufferSerial)
    (hInv2 : bufferInvariant st2.bufferSerial)
    (hMissed : len = 1 → st.isWaitingForNewChannelNumber = false →
      memOfList data 0 = ORPM_PACKET_MISSED → 1 ≤ st.bufferSerial.numberOfPacketsToSend)
    (hQuery : ¬(st.isHost = true ∧ st.bufferSerial.numberOfPacketsToSend = 1 ∧
      (st.bufferSerial.packetBuffer 0).positionWrite = 2 ∧
      (st.bufferSerial.packetBuffer 0).data 1 = OPENBCI_HOST_CHANNEL_QUERY)) :
    bufferInvariant (RFduinoGZLL_onReceive st data len now eraseRc writeRc).1.bufferSerial ∧
    bufferInvariant (bufferSerialFetch st2 input now2 nowUs).1.bufferSerial := by
  constructor
  · show bufferInvariant (onReceiveFinish
      (if st.isHost then { st with lastTimeHostHeardFromDevice := now } else st)
      (memOfList data) now
      (onReceiveDispatch
        (if st.isHost then { st with lastTimeHostHeardFromDevice := now } else st)
        (memOfList data) len now eraseRc writeRc)).1.bufferSerial
    by_cases hH : st.isHost = true
    · rw [if_pos hH]
      exact c1_main_aux _ _ _ _ _ _ hInv hMissed hQuery
    · rw [if_neg hH]
      exact c1_main_aux _ _ _ _ _ _ hInv hMissed hQuery
  · exact bufferSerialFetch_bufferInvariant st2 input now2 nowUs hInv2

/-- C1, counterexample to the literal claim: a Device whose serial
buffer is clean (`numberOfPacketsToSend = 0`) satisfies the Buffer
invariant, yet after receiving the single control byte
`ORPM_PACKET_MISSED` the handler resets `numberOfPacketsSent` to 0 and
then sends a packet and increments it, ending with
`numberOfPacketsSent = 1 > 0 = numberOfPacketsToSend`. -/
theorem c1_counterexample :
    bufferInvariant (mkCleanState true).bufferSerial ∧
    ¬ bufferInvariant
      (RFduinoGZLL_onReceive (mkCleanState true) [ORPM_PACKET_MISSED] 1 0 0 0).1.bufferSerial := by
  decide

/-- C1, witness: the amended theorem applied to a clean Device receiving
an `ORPM_PACKET_BAD_CHECK_SUM` byte, and a one-byte serial ingestion
pass. -/
theorem c1_buffer_invariant_witness :
    bufferInvariant
      (RFduinoGZLL_onReceive (mkCleanState true) [ORPM_PACKET_BAD_CHECK_SUM] 1 0 0 0).1.bufferSerial ∧
    bufferInvariant (bufferSerialFetch (mkCleanState true) [5] 0 0).1.bufferSerial :=
  c1_buffer_invariant (mkCleanState true) (mkCleanState true) [ORPM_PACKET_BAD_CHECK_SUM] [5]
    1 0 0 0 0 0 (by decide) (by decide) (by decide) (by decide)

/-! ## C5: out-of-order packets -/

theorem onReceiveFinish_false (st : RadioState) (mem : Int → Nat) (now : Nat)
    (s : RadioState) (evs : List Event) :
    onReceiveFinish st mem now (s, evs, false) = (s, evs) := rfl

theorem c5_aux (st1 : RadioState) (mem : Int → Nat) (len : Int) (now : Nat) (e w : Int)
    (hlen : 1 < len) (hck : checkSumsAreEqual mem len = true)
    (h1 : ¬(byteIdGetPacketNumber (mem 0) = 0 ∧ st1.previousPacketNumber = 0))
    (h2 : ¬(byteIdGetPacketNumber (mem 0) > 0 ∧ st1.previousPacketNumber = 0))
    (h3 : ¬(st1.previousPacketNumber - byteIdGetPacketNumber (mem 0) = 1)) :
    (onReceiveFinish st1 mem now
      (onReceiveDispatch st1 mem len now e w)).1.bufferPositionWriteRadio = 0 ∧
    (onReceiveFinish st1 mem now
      (onReceiveDispatch st1 mem len now e w)).1.previousPacketNumber = 0 ∧
    (onReceiveFinish st1 mem now
      (onReceiveDispatch st1 mem len now e w)).1.bufferRadio = st1.bufferRadio ∧
    (onReceiveFinish st1 mem now
      (onReceiveDispatch st1 mem len now e w)).2.filter isRadioEvent =
      [if st1.isHost then Event.radioToDevice [ORPM_PACKET_MISSED]
       else Event.radioToHost [ORPM_PACKET_MISSED]] := by
  rw [onReceiveDispatch, if_neg (show ¬(len = 1) by omega), if_pos hlen]
  simp only [onReceivePayload]
  rw [if_pos hck, if_neg h1, if_neg h2, if_neg h3]
  simp only [onReceiveBadTail, vp]
  split_ifs with hh hv
  all_goals rw [onReceiveFinish_false]
  all_goals refine ⟨rfl, rfl, rfl, ?_⟩
  all_goals simp [isRadioEvent, hh]

/-- C5: a valid-checksum payload packet whose packet number is neither
0-with-previous-0, nor a fresh page start, nor one less than
`previousPacketNumber`, is rejected: the radio-receive write cursor and
`previousPacketNumber` are reset to 0, `bufferRadio` is untouched, and
the only radio reply is the 1-byte `ORPM_PACKET_MISSED` code. -/
theorem c5_packet_missed (st : RadioState) (data : List Nat) (len : Int) (now : Nat)
    (eraseRc writeRc : Int)
    (hlen : 1 < len)
    (hck : checkSumsAreEqual (memOfList data) len = true)
    (h1 : ¬(byteIdGetPacketNumber (memOfList data 0) = 0 ∧ st.previousPacketNumber = 0))
    (h2 : ¬(byteIdGetPacketNumber (memOfList data 0) > 0 ∧ st.previousPacketNumber = 0))
    (h3 : ¬(st.previousPacketNumber - byteIdGetPacketNumber (memOfList data 0) = 1)) :
    (RFduinoGZLL_onReceive st data len now eraseRc writeRc).1.bufferPositionWriteRadio = 0 ∧
    (RFduinoGZLL_onReceive st data len now eraseRc writeRc).1.previousPacketNumber = 0 ∧
    (RFduinoGZLL_onReceive st data len now eraseRc writeRc).1.bufferRadio = st.bufferRadio ∧
    (RFduinoGZLL_onReceive st data len now eraseRc writeRc).2.filter isRadioEvent =
      [if st.isHost then Event.radioToDevice [ORPM_PACKET_MISSED]
       else Event.radioToHost [ORPM_PACKET_MISSED]] := by
  by_cases hH : st.isHost = true
  · have heq : RFduinoGZLL_onReceive st data len now eraseRc writeRc =
        onReceiveFinish { st with lastTimeHostHeardFromDevice := now } (memOfList data) now
          (onReceiveDispatch { st with lastTimeHostHeardFromDevice := now }
            (memOfList data) len now eraseRc writeRc) := by
      simp only [RFduinoGZLL_onReceive]
      rw [if_pos hH]
    rw [heq]
    exact c5_aux _ _ _ _ _ _ hlen hck h1 h2 h3
  · have heq : RFduinoGZLL_onReceive st data len now eraseRc writeRc =
        onReceiveFinish st (memOfList data) now
          (onReceiveDispatch st (memOfList data) len now eraseRc writeRc) := by
      simp only [RFduinoGZLL_onReceive]
      rw [if_neg hH]
    rw [heq]
    exact c5_aux _ _ _ _ _ _ hlen hck h1 h2 h3

/-- C5, witness: a Device that last accepted packet number 3 receives a
valid 2-byte packet with packet number 1 (numbers 3,1 instead of
3,2,1). -/
theorem c5_packet_missed_witness :
    (RFduinoGZLL_onReceive { mkCleanState true with previousPacketNumber := 3 }
      [8, 0] 2 0 0 0).1.bufferPositionWriteRadio = 0 ∧
    (RFduinoGZLL_onReceive { mkCleanState true with previousPacketNumber := 3 }
      [8, 0] 2 0 0 0).1.previousPacketNumber = 0 ∧
    (RFduinoGZLL_onReceive { mkCleanState true with previousPacketNumber := 3 }
      [8, 0] 2 0 0 0).1.bufferRadio =
      ({ mkCleanState true with previousPacketNumber := 3 } : RadioState).bufferRadio ∧
    (RFduinoGZLL_onReceive { mkCleanState true with previousPacketNumber := 3 }
      [8, 0] 2 0 0 0).2.filter isRadioEvent =
      [if ({ mkCleanState true with previousPacketNumber := 3 } : RadioState).isHost then
        Event.radioToDevice [ORPM_PACKET_MISSED]
       else Event.radioToHost [ORPM_PACKET_MISSED]] :=
  c5_packet_missed { mkCleanState true with previousPacketNumber := 3 } [8, 0] 2 0 0 0
    (by decide) (by decide) (by decide) (by decide) (by decide)

/-! ## C4: corrupted packets -/

theorem sumBytes_update {f g : Int → Nat} (t0 n : Nat) (ht : t0 < n)
    (hagree : ∀ j : Nat, j < n → j ≠ t0 → f j = g j) :
    sumBytes g n + f t0 = sumBytes f n + g t0 := by
  induction n with
  | zero => omega
  | succ n ih =>
    simp only [sumBytes]
    by_cases h : t0 = n
    · subst h
      have hc : sumBytes f t0 = sumBytes g t0 :=
        sumBytes_congr t0 (fun j hj => hagree j (by omega) (by omega))
      omega
    · have := ih (by omega) (fun j hj hne => hagree j (by omega) hne)
      rw [hagree n (by omega) (fun hc => h hc.symm)]
      omega

theorem xor_flip_mod8 (a k : Nat) (hk : k < 3) :
    (a ^^^ 2 ^ k) % 8 ≠ a % 8 := by
  intro hco
  have h1 : ((a ^^^ 2 ^ k) % 2 ^ 3).testBit k = (a % 2 ^ 3).testBit k := by
    rw [show (2 : Nat) ^ 3 = 8 by norm_num, hco]
  rw [Nat.testBit_mod_two_pow, Nat.testBit_mod_two_pow, Nat.testBit_xor,
    Nat.testBit_two_pow_self] at h1
  rw [decide_eq_true hk] at h1
  simp at h1

theorem memOfList_succ (l : List Nat) (j : Nat) :
    memOfList l (1 + (j : Int)) = l.getD (j + 1) 0 := by
  simp only [memOfList]
  rw [if_pos (by omega : (0 : Int) ≤ 1 + (j : Int))]
  have h : ((1 : Int) + (j : Int)).toNat = j + 1 := by omega
  rw [h]

theorem memOfList_zero (l : List Nat) : memOfList l 0 = l.getD 0 0 := by
  simp [memOfList]

/-- Flipping one of the three low bits of a payload byte of a packet
whose header checksum was valid makes `checkSumsAreEqual` fail. -/
theorem checksum_flip_breaks (data : List Nat) (i k : Nat)
    (hlen : 1 < data.length) (hcap : data.length ≤ 32)
    (hi1 : 1 ≤ i) (hi2 : i < data.length) (hk : k < 3)
    (hck : checkSumsAreEqual (memOfList data) (data.length : Int) = true) :
    checkSumsAreEqual (memOfList (data.set i (data.getD i 0 ^^^ 2 ^ k)))
      (data.length : Int) = false := by
  set v := data.getD i 0 ^^^ 2 ^ k with hv
  set d2 := data.set i v with hd2
  have hd2len : d2.length = data.length := by rw [hd2, List.length_set]
  have hn : (((data.length : Int)) - 1).toNat = data.length - 1 := by omega
  have hgetD : ∀ j : Nat, j ≠ i → d2.getD j 0 = data.getD j 0 := by
    intro j hj
    rw [hd2, List.getD_eq_getElem?_getD, List.getD_eq_getElem?_getD,
      List.getElem?_set_ne (fun hc => hj hc.symm)]
  have hgetDi : d2.getD i 0 = v := by
    rw [hd2, List.getD_eq_getElem?_getD, List.getElem?_set_self (by omega), Option.getD_some]
  have hhead : memOfList d2 0 = memOfList data 0 := by
    rw [memOfList_zero, memOfList_zero, hgetD 0 (by omega)]
  have hagree : ∀ j : Nat, j < data.length - 1 → j ≠ i - 1 →
      (fun t => memOfList data (1 + t)) (j : Int) = (fun t => memOfList d2 (1 + t)) (j : Int) := by
    intro j hj hne
    show memOfList data (1 + (j : Int)) = memOfList d2 (1 + (j : Int))
    rw [memOfList_succ, memOfList_succ, hgetD (j + 1) (by omega)]
  have hupd := sumBytes_update (f := fun t => memOfList data (1 + t))
    (g := fun t => memOfList d2 (1 + t)) (i - 1) (data.length - 1) (by omega) hagree
  have hf : (fun t => memOfList data (1 + t)) ((i - 1 : Nat) : Int) = data.getD i 0 := by
    show memOfList data (1 + ((i - 1 : Nat) : Int)) = data.getD i 0
    rw [memOfList_succ]
    have : i - 1 + 1 = i := by omega
    rw [this]
  have hg : (fun t => memOfList d2 (1 + t)) ((i - 1 : Nat) : Int) = v := by
    show memOfList d2 (1 + ((i - 1 : Nat) : Int)) = v
    rw [memOfList_succ]
    have : i - 1 + 1 = i := by omega
    rw [this, hgetDi]
  rw [hf, hg] at hupd
  have hcs : checkSumMake (some fun t => memOfList data (1 + t)) ((data.length : Int) - 1)
      = (8 - sumBytes (fun t => memOfList data (1 + t)) (data.length - 1) % 8) % 8 := by
    rw [checkSumMake_pos _ _ (by omega) (by omega), hn]
  have hcs2 : checkSumMake (some fun t => memOfList d2 (1 + t)) ((data.length : Int) - 1)
      = (8 - sumBytes (fun t => memOfList d2 (1 + t)) (data.length - 1) % 8) % 8 := by
    rw [checkSumMake_pos _ _ (by omega) (by omega), hn]
  rw [checkSumsAreEqual, beq_iff_eq] at hck
  rw [checkSumsAreEqual, beq_eq_false_iff_ne, hhead, hck, hcs, hcs2]
  have hflip := xor_flip_mod8 (data.getD i 0) k hk
  rw [← hv] at hflip
  omega

theorem c4_aux (st1 : RadioState) (mem : Int → Nat) (len : Int) (now : Nat) (e w : Int)
    (hlen : 1 < len) (hck : checkSumsAreEqual mem len = false) :
    (onReceiveFinish st1 mem now
      (onReceiveDispatch st1 mem len now e w)).1.previousPacketNumber =
      st1.previousPacketNumber ∧
    (onReceiveFinish st1 mem now
      (onReceiveDispatch st1 mem len now e w)).1.bufferPositionWriteRadio =
      st1.bufferPositionWriteRadio ∧
    (onReceiveFinish st1 mem now
      (onReceiveDispatch st1 mem len now e w)).1.bufferRadio = st1.bufferRadio ∧
    (onReceiveFinish st1 mem now
      (onReceiveDispatch st1 mem len now e w)).2.filter isRadioEvent =
      [if st1.isHost then Event.radioToDevice [ORPM_PACKET_BAD_CHECK_SUM]
       else Event.radioToHost [ORPM_PACKET_BAD_CHECK_SUM]] := by
  rw [onReceiveDispatch, if_neg (show ¬(len = 1) by omega), if_pos hlen]
  simp only [onReceivePayload]
  rw [if_neg (show ¬(checkSumsAreEqual mem len = true) by
    rw [hck]; exact Bool.false_ne_true)]
  simp only [onReceiveBadTail, vp]
  split_ifs with hh hv
  all_goals rw [onReceiveFinish_false]
  all_goals refine ⟨rfl, rfl, rfl, ?_⟩
  all_goals simp [isRadioEvent, hh]

/-- C4 (amended): flipping one of the three LOW bits (bit 0..2) of a
payload byte of a valid payload packet makes the receive handler reply
with the 1-byte `ORPM_PACKET_BAD_CHECK_SUM` code and leave
`previousPacketNumber`, the radio-receive write cursor and `bufferRadio`
unchanged.  The guarantee does not extend to the five high bits: the
checksum keeps only 3 bits of the byte sum, so a flip of bit 3..7
passes the check (see the counterexample). -/
theorem c4_bad_checksum_reply (st : RadioState) (data : List Nat) (i k : Nat)
    (now : Nat) (eraseRc writeRc : Int)
    (hlen : 1 < data.length) (hcap : data.length ≤ 32)
    (hi1 : 1 ≤ i) (hi2 : i < data.length) (hk : k < 3)
    (hck : checkSumsAreEqual (memOfList data) (data.length : Int) = true) :
    checkSumsAreEqual (memOfList (data.set i (data.getD i 0 ^^^ 2 ^ k)))
      (data.length : Int) = false ∧
    (RFduinoGZLL_onReceive st (data.set i (data.getD i 0 ^^^ 2 ^ k)) (data.length : Int)
      now eraseRc writeRc).1.previousPacketNumber = st.previousPacketNumber ∧
    (RFduinoGZLL_onReceive st (data.set i (data.getD i 0 ^^^ 2 ^ k)) (data.length : Int)
      now eraseRc writeRc).1.bufferPositionWriteRadio = st.bufferPositionWriteRadio ∧
    (RFduinoGZLL_onReceive st (data.set i (data.getD i 0 ^^^ 2 ^ k)) (data.length : Int)
      now eraseRc writeRc).1.bufferRadio = st.bufferRadio ∧
    (RFduinoGZLL_onReceive st (data.set i (data.getD i 0 ^^^ 2 ^ k)) (data.length : Int)
      now eraseRc writeRc).2.filter isRadioEvent =
      [if st.isHost then Event.radioToDevice [ORPM_PACKET_BAD_CHECK_SUM]
       else Event.radioToHost [ORPM_PACKET_BAD_CHECK_SUM]] := by
  have hbreak := checksum_flip_breaks data i k hlen hcap hi1 hi2 hk hck
  refine ⟨hbreak, ?_⟩
  have hbreak2 : checkSumsAreEqual (memOfList (data.set i (data.getD i 0 ^^^ 2 ^ k)))
      ((data.set i (data.getD i 0 ^^^ 2 ^ k)).length : Int) = false := by
    rw [List.length_set]
    exact hbreak
  by_cases hH : st.isHost = true
  · have heq : RFduinoGZLL_onReceive st (data.set i (data.getD i 0 ^^^ 2 ^ k))
        (data.length : Int) now eraseRc writeRc =
        onReceiveFinish { st with lastTimeHostHeardFromDevice := now }
          (memOfList (data.set i (data.getD i 0 ^^^ 2 ^ k))) now
          (onReceiveDispatch { st with lastTimeHostHeardFromDevice := now }
            (memOfList (data.set i (data.getD i 0 ^^^ 2 ^ k)))
            (data.length : Int) now eraseRc writeRc) := by
      simp only [RFduinoGZLL_onReceive]
      rw [if_pos hH]
    rw [heq]
    exact c4_aux _ _ _ _ _ _ (by omega) hbreak
  · have heq : RFduinoGZLL_onReceive st (data.set i (data.getD i 0 ^^^ 2 ^ k))
        (data.length : Int) now eraseRc writeRc =
        onReceiveFinish st (memOfList (data.set i (data.getD i 0 ^^^ 2 ^ k))) now
          (onReceiveDispatch st (memOfList (data.set i (data.getD i 0 ^^^ 2 ^ k)))
            (data.length : Int) now eraseRc writeRc) := by
      simp only [RFduinoGZLL_onReceive]
      rw [if_neg hH]
    rw [heq]
    exact c4_aux _ _ _ _ _ _ (by omega) hbreak

/-- C4, counterexample to the literal claim: the valid 2-byte packet
`[0, 0]` with bit 3 of its payload byte flipped (giving `[0, 8]`) still
passes `checkSumsAreEqual` — the 3-bit checksum cannot see the flip —
so a clean Device accepts it: no `ORPM_PACKET_BAD_CHECK_SUM` reply is
sent and the byte is appended to `bufferRadio` (write cursor 0 → 1). -/
theorem c4_counterexample :
    checkSumsAreEqual (memOfList [0, 0]) 2 = true ∧
    checkSumsAreEqual (memOfList [0, 0 ^^^ 2 ^ 3]) 2 = true ∧
    (RFduinoGZLL_onReceive (mkCleanState true) [0, 0 ^^^ 2 ^ 3]
      2 0 0 0).1.bufferPositionWriteRadio = 1 ∧
    (RFduinoGZLL_onReceive (mkCleanState true) [0, 0 ^^^ 2 ^ 3]
      2 0 0 0).2.filter isRadioEvent ≠
      [Event.radioToHost [ORPM_PACKET_BAD_CHECK_SUM]] := by
  decide

/-- C4, witness: a Device receiving the valid packet `[7, 1]` with bit 0
of its payload byte flipped. -/
theorem c4_bad_checksum_reply_witness :
    checkSumsAreEqual (memOfList ([7, 1].set 1 ([7, 1].getD 1 0 ^^^ 2 ^ 0)))
      (([7, 1] : List Nat).length : Int) = false ∧
    (RFduinoGZLL_onReceive (mkCleanState true) ([7, 1].set 1 ([7, 1].getD 1 0 ^^^ 2 ^ 0))
      (([7, 1] : List Nat).length : Int) 0 0 0).1.previousPacketNumber =
      (mkCleanState true).previousPacketNumber ∧
    (RFduinoGZLL_onReceive (mkCleanState true) ([7, 1].set 1 ([7, 1].getD 1 0 ^^^ 2 ^ 0))
      (([7, 1] : List Nat).length : Int) 0 0 0).1.bufferPositionWriteRadio =
      (mkCleanState true).bufferPositionWriteRadio ∧
    (RFduinoGZLL_onReceive (mkCleanState true) ([7, 1].set 1 ([7, 1].getD 1 0 ^^^ 2 ^ 0))
      (([7, 1] : List Nat).length : Int) 0 0 0).1.bufferRadio =
      (mkCleanState true).bufferRadio ∧
    (RFduinoGZLL_onReceive (mkCleanState true) ([7, 1].set 1 ([7, 1].getD 1 0 ^^^ 2 ^ 0))
      (([7, 1] : List Nat).length : Int) 0 0 0).2.filter isRadioEvent =
      [if (mkCleanState true).isHost then Event.radioToDevice [ORPM_PACKET_BAD_CHECK_SUM]
       else Event.radioToHost [ORPM_PACKET_BAD_CHECK_SUM]] :=
  c4_bad_checksum_reply (mkCleanState true) [7, 1] 1 0 0 0 0
    (by decide) (by decide) (by decide) (by decide) (by decide) (by decide)

theorem fetchStepTimers_spb (st : RadioState) (now : Nat) :
    (fetchStepTimers st now).streamPacketBuffer = st.streamPacketBuffer := by
  rw [fetchStepTimers]
  split_ifs <;> rfl

theorem fetchStepWrap_spb (st : RadioState) :
    (fetchStepWrap st).1.streamPacketBuffer = st.streamPacketBuffer ∧
    (fetchStepWrap st).1.isDevice = st.isDevice := by
  simp only [fetchStepWrap, fetchOverflow, bufferCleanSerial, bufferCleanBuffer]
  split_ifs <;> exact ⟨rfl, rfl⟩

theorem fetchStepWrap_cursor_some (st : RadioState) (q : Int)
    (hcur : st.currentPacketBufferSerial = some q) :
    ∃ q2, (fetchStepWrap st).1.currentPacketBufferSerial = some q2 := by
  by_cases hpw : (st.bufferSerial.packetBuffer q).positionWrite < 32
  · exact ⟨q, by rw [fetchStepWrap_nowrap st q hcur hpw]; exact hcur⟩
  · by_cases hts : st.bufferSerial.numberOfPacketsToSend + 1 < 4
    · refine ⟨q + 1, ?_⟩
      rw [fetchStepWrap_advance st q hcur (by omega) hts]
    · refine ⟨0, ?_⟩
      rw [fetchStepWrap_overflow st q hcur (by omega) (by omega)]
      rfl

theorem processChar_spb_congr (st1 st2 : RadioState) (c nowUs : Nat)
    (h : st1.streamPacketBuffer = st2.streamPacketBuffer) :
    (processCharForStreamPacket st1 c nowUs).streamPacketBuffer =
      (processCharForStreamPacket st2 c nowUs).streamPacketBuffer := by
  simp only [processCharForStreamPacket, bufferResetStreamPacketBuffer, h]
  split_ifs <;> first | rfl | exact h

theorem fetchWrite_spb_dev (st : RadioState) (q : Int) (c nowUs : Nat)
    (hdv : st.isDevice = true) :
    (fetchWrite st q c nowUs).streamPacketBuffer =
      (processCharForStreamPacket st c nowUs).streamPacketBuffer := by
  rw [fetchWrite]
  split_ifs with h
  · exact processChar_spb_congr _ _ c nowUs rfl
  · exact absurd hdv h

theorem processChar_mid (st : RadioState) (c nowUs : Nat) (b : Int)
    (hready : st.streamPacketBuffer.readyForLaunch = false)
    (hgot : st.streamPacketBuffer.gotHead = true)
    (hb : st.streamPacketBuffer.bytesIn = b) (h1 : 1 ≤ b) (h2 : b ≤ 31) :
    (processCharForStreamPacket st c nowUs).streamPacketBuffer.readyForLaunch = false ∧
    (processCharForStreamPacket st c nowUs).streamPacketBuffer.gotHead = true ∧
    (processCharForStreamPacket st c nowUs).streamPacketBuffer.bytesIn = b + 1 := by
  simp only [processCharForStreamPacket, OPENBCI_MAX_PACKET_SIZE_BYTES]
  rw [if_neg (show ¬(st.streamPacketBuffer.readyForLaunch = true) by
    rw [hready]; exact Bool.false_ne_true)]
  rw [if_pos hgot]
  rw [if_neg (show ¬(st.streamPacketBuffer.bytesIn + 1 = 32 + 1) by omega)]
  exact ⟨hready, hgot, by rw [hb]⟩

theorem processChar_tail (st : RadioState) (nowUs : Nat)
    (hready : st.streamPacketBuffer.readyForLaunch = false)
    (hgot : st.streamPacketBuffer.gotHead = true)
    (hb : st.streamPacketBuffer.bytesIn = 32) :
    (processCharForStreamPacket st 0xF3 nowUs).streamPacketBuffer.readyForLaunch = true ∧
    (processCharForStreamPacket st 0xF3 nowUs).streamPacketBuffer.typeByte = 0xF3 := by
  simp only [processCharForStreamPacket, OPENBCI_MAX_PACKET_SIZE_BYTES]
  rw [if_neg (show ¬(st.streamPacketBuffer.readyForLaunch = true) by
    rw [hready]; exact Bool.false_ne_true)]
  rw [if_pos hgot]
  rw [if_pos (show st.streamPacketBuffer.bytesIn + 1 = 32 + 1 by omega)]
  rw [if_pos (show (0xF3 : Nat) &&& 0xF0 = 0xF0 by decide)]
  exact ⟨rfl, rfl⟩

theorem fetchStep_det_mid (st : RadioState) (c now nowUs : Nat) (q b : Int)
    (hcur : st.currentPacketBufferSerial = some q) (hdv : st.isDevice = true)
    (hready : st.streamPacketBuffer.readyForLaunch = false)
    (hgot : st.streamPacketBuffer.gotHead = true)
    (hb : st.streamPacketBuffer.bytesIn = b) (h1 : 1 ≤ b) (h2 : b ≤ 31) :
    (∃ q2, (fetchStep st c now nowUs).1.currentPacketBufferSerial = some q2) ∧
    (fetchStep st c now nowUs).1.isDevice = true ∧
    (fetchStep st c now nowUs).1.streamPacketBuffer.readyForLaunch = false ∧
    (fetchStep st c now nowUs).1.streamPacketBuffer.gotHead = true ∧
    (fetchStep st c now nowUs).1.streamPacketBuffer.bytesIn = b + 1 := by
  obtain ⟨q2, hq2⟩ := fetchStepWrap_cursor_some st q hcur
  obtain ⟨hspbW, hdvW⟩ := fetchStepWrap_spb st
  have hstep : (fetchStep st c now nowUs).1 =
      fetchStepTimers (fetchWrite (fetchStepWrap st).1 q2 c nowUs) now := by
    rw [fetchStep_eq]
    show fetchStepTimers (fetchStepStore (fetchStepWrap st).1 c nowUs).1 now = _
    rw [fetchStepStore_some _ q2 c nowUs hq2]
  have hm := processChar_mid (fetchStepWrap st).1 c nowUs b
    (by rw [hspbW]; exact hready) (by rw [hspbW]; exact hgot) (by rw [hspbW]; exact hb) h1 h2
  refine ⟨⟨q2, ?_⟩, ?_, ?_, ?_, ?_⟩
  · rw [hstep, fetchStepTimers_cursor, fetchWrite_cursor]
    exact hq2
  · rw [hstep, fetchStepTimers_isDevice, fetchWrite_isDevice, hdvW]
    exact hdv
  · rw [hstep, fetchStepTimers_spb,
      fetchWrite_spb_dev _ _ _ _ (by rw [hdvW]; exact hdv)]
    exact hm.1
  · rw [hstep, fetchStepTimers_spb,
      fetchWrite_spb_dev _ _ _ _ (by rw [hdvW]; exact hdv)]
    exact hm.2.1
  · rw [hstep, fetchStepTimers_spb,
      fetchWrite_spb_dev _ _ _ _ (by rw [hdvW]; exact hdv)]
    exact hm.2.2

theorem fetchStep_det_tail (st : RadioState) (now nowUs : Nat) (q : Int)
    (hcur : st.currentPacketBufferSerial = some q) (hdv : st.isDevice = true)
    (hready : st.streamPacketBuffer.readyForLaunch = false)
    (hgot : st.streamPacketBuffer.gotHead = true)
    (hb : st.streamPacketBuffer.bytesIn = 32) :
    (fetchStep st 0xF3 now nowUs).1.streamPacketBuffer.readyForLaunch = true ∧
    (fetchStep st 0xF3 now nowUs).1.streamPacketBuffer.typeByte = 0xF3 := by
  obtain ⟨q2, hq2⟩ := fetchStepWrap_cursor_some st q hcur
  obtain ⟨hspbW, hdvW⟩ := fetchStepWrap_spb st
  have hstep : (fetchStep st 0xF3 now nowUs).1 =
      fetchStepTimers (fetchWrite (fetchStepWrap st).1 q2 0xF3 nowUs) now := by
    rw [fetchStep_eq]
    show fetchStepTimers (fetchStepStore (fetchStepWrap st).1 0xF3 nowUs).1 now = _
    rw [fetchStepStore_some _ q2 0xF3 nowUs hq2]
  have hm := processChar_tail (fetchStepWrap st).1 nowUs
    (by rw [hspbW]; exact hready) (by rw [hspbW]; exact hgot) (by rw [hspbW]; exact hb)
  constructor
  · rw [hstep, fetchStepTimers_spb,
      fetchWrite_spb_dev _ _ _ _ (by rw [hdvW]; exact hdv)]
    exact hm.1
  · rw [hstep, fetchStepTimers_spb,
      fetchWrite_spb_dev _ _ _ _ (by rw [hdvW]; exact hdv)]
    exact hm.2

theorem fetchLoop_det : ∀ (rest : List Nat) (st : RadioState) (b : Int) (now nowUs : Nat),
    st.isDevice = true → (∃ q, st.currentPacketBufferSerial = some q) →
    st.streamPacketBuffer.readyForLaunch = false →
    st.streamPacketBuffer.gotHead = true →
    st.streamPacketBuffer.bytesIn = b → 1 ≤ b → b + rest.length ≤ 32 →
    (bufferSerialFetchLoop st rest now nowUs).1.isDevice = true ∧
    (∃ q, (bufferSerialFetchLoop st rest now nowUs).1.currentPacketBufferSerial = some q) ∧
    (bufferSerialFetchLoop st rest now nowUs).1.streamPacketBuffer.readyForLaunch = false ∧
    (bufferSerialFetchLoop st rest now nowUs).1.streamPacketBuffer.gotHead = true ∧
    (bufferSerialFetchLoop st rest now nowUs).1.streamPacketBuffer.bytesIn = b + rest.length := by
  intro rest
  induction rest with
  | nil =>
    intro st b now nowUs h1 h2 h3 h4 h5 h6 h7
    refine ⟨h1, h2, h3, h4, ?_⟩
    show st.streamPacketBuffer.bytesIn = b + (0 : Nat)
    omega
  | cons c rest ih =>
    intro st b now nowUs h1 h2 h3 h4 h5 h6 h7
    obtain ⟨q, hq⟩ := h2
    have hlc : ((c :: rest).length : Int) = rest.length + 1 := by
      rw [List.length_cons]
      omega
    have hmid := fetchStep_det_mid st c now nowUs q b hq h1 h3 h4 h5 h6 (by omega)
    obtain ⟨⟨q2, hq2⟩, hdv2, hr2, hg2, hb2⟩ := hmid
    have hrec := ih (fetchStep st c now nowUs).1 (b + 1) now nowUs hdv2 ⟨q2, hq2⟩ hr2 hg2 hb2
      (by omega) (by omega)
    have hcons : (bufferSerialFetchLoop st (c :: rest) now nowUs).1 =
        (bufferSerialFetchLoop (fetchStep st c now nowUs).1 rest now nowUs).1 := rfl
    refine ⟨?_, ?_, ?_, ?_, ?_⟩
    · rw [hcons]; exact hrec.1
    · rw [hcons]; exact hrec.2.1
    · rw [hcons]; exact hrec.2.2.1
    · rw [hcons]; exact hrec.2.2.2.1
    · rw [hcons, hrec.2.2.2.2]
      omega

theorem fetchLoop_append (l1 l2 : List Nat) (now nowUs : Nat) : ∀ st : RadioState,
    (bufferSerialFetchLoop st (l1 ++ l2) now nowUs).1 =
      (bufferSerialFetchLoop (bufferSerialFetchLoop st l1 now nowUs).1 l2 now nowUs).1 := by
  induction l1 with
  | nil => intro st; rfl
  | cons c l1 ih =>
    intro st
    show (bufferSerialFetchLoop (fetchStep st c now nowUs).1 (l1 ++ l2) now nowUs).1 = _
    rw [ih]
    rfl

theorem streamPacketDispatch_header (st : RadioState) (now nowUs : Nat)
    (hready : st.streamPacketBuffer.readyForLaunch = true)
    (htype : st.streamPacketBuffer.typeByte = 0xF3)
    (hdelay : hasEnoughTimePassedToLaunchStreamPacket st nowUs = true) :
    ∃ pkt, (streamPacketDispatch st now nowUs).2 = [Event.radioToHost pkt] ∧
      byteIdGetIsStream (pkt.headD 0) = true ∧
      byteIdGetStreamPacketType (pkt.headD 0) = 3 := by
  rw [streamPacketDispatch,
    if_pos (show (isAStreamPacketWaitingForLaunch st &&
        hasEnoughTimePassedToLaunchStreamPacket st nowUs) = true by
      rw [isAStreamPacketWaitingForLaunch, hready, hdelay]; rfl)]
  refine ⟨_, rfl, ?_, ?_⟩
  · show byteIdGetIsStream
      (((List.range 32).map (fun j => writeMem st.streamPacketBuffer.data 0
        (byteIdMake true ((byteIdMakeStreamPacketType st : Nat) : Int)
          (some (fun j => st.streamPacketBuffer.data (1 + j)))
          OPENBCI_MAX_DATA_BYTES_IN_PACKET) (j : Int))).headD 0) = true
    have hh : (((List.range 32).map (fun j => writeMem st.streamPacketBuffer.data 0
        (byteIdMake true ((byteIdMakeStreamPacketType st : Nat) : Int)
          (some (fun j => st.streamPacketBuffer.data (1 + j)))
          OPENBCI_MAX_DATA_BYTES_IN_PACKET) (j : Int))).headD 0)
        = writeMem st.streamPacketBuffer.data 0
          (byteIdMake true ((byteIdMakeStreamPacketType st : Nat) : Int)
            (some (fun j => st.streamPacketBuffer.data (1 + j)))
            OPENBCI_MAX_DATA_BYTES_IN_PACKET) 0 := rfl
    rw [hh, writeMem_same]
    exact byteIdMake_stream_bit true _ _ _
  · show byteIdGetStreamPacketType
      (((List.range 32).map (fun j => writeMem st.streamPacketBuffer.data 0
        (byteIdMake true ((byteIdMakeStreamPacketType st : Nat) : Int)
          (some (fun j => st.streamPacketBuffer.data (1 + j)))
          OPENBCI_MAX_DATA_BYTES_IN_PACKET) (j : Int))).headD 0) = 3
    have hh : (((List.range 32).map (fun j => writeMem st.streamPacketBuffer.data 0
        (byteIdMake true ((byteIdMakeStreamPacketType st : Nat) : Int)
          (some (fun j => st.streamPacketBuffer.data (1 + j)))
          OPENBCI_MAX_DATA_BYTES_IN_PACKET) (j : Int))).headD 0)
        = writeMem st.streamPacketBuffer.data 0
          (byteIdMake true ((byteIdMakeStreamPacketType st : Nat) : Int)
            (some (fun j => st.streamPacketBuffer.data (1 + j)))
            OPENBCI_MAX_DATA_BYTES_IN_PACKET) 0 := rfl
    rw [hh, writeMem_same, byteIdGetStreamPacketType, byteIdMake_pn_bits]
    rw [byteIdMakeStreamPacketType, htype]
    decide

/-- C9: feeding a reset Device the 33-byte sequence `'A'`, 31 arbitrary
payload bytes, `0xF3` through the serial ingestion path leaves the
stream packet buffer ready for launch with `typeByte = 0xF3`, and once
the fixed dispatch delay has elapsed the dispatch radios a packet whose
header has the stream flag set and stream sub-type 3. -/
theorem c9_stream_packet (payload : List Nat) (now nowUs now2 nowUs2 : Nat)
    (hlen : payload.length = 31) :
    (bufferSerialFetch (mkCleanState true) (0x41 :: (payload ++ [0xF3]))
      now nowUs).1.streamPacketBuffer.readyForLaunch = true ∧
    (bufferSerialFetch (mkCleanState true) (0x41 :: (payload ++ [0xF3]))
      now nowUs).1.streamPacketBuffer.typeByte = 0xF3 ∧
    (hasEnoughTimePassedToLaunchStreamPacket
        (bufferSerialFetch (mkCleanState true) (0x41 :: (payload ++ [0xF3])) now nowUs).1
        nowUs2 = true →
      ∃ pkt, (streamPacketDispatch
          (bufferSerialFetch (mkCleanState true) (0x41 :: (payload ++ [0xF3])) now nowUs).1
          now2 nowUs2).2 = [Event.radioToHost pkt] ∧
        byteIdGetIsStream (pkt.headD 0) = true ∧
        byteIdGetStreamPacketType (pkt.headD 0) = 3) := by
  have hstart : bufferSerialFetch (mkCleanState true) (0x41 :: (payload ++ [0xF3])) now nowUs
      = bufferSerialFetchLoop
          { mkCleanState true with bufferSerial :=
            { (mkCleanState true).bufferSerial with numberOfPacketsToSend := 1 } }
          (0x41 :: (payload ++ [0xF3])) now nowUs := rfl
  have hcons : (bufferSerialFetchLoop
      { mkCleanState true with bufferSerial :=
        { (mkCleanState true).bufferSerial with numberOfPacketsToSend := 1 } }
      (0x41 :: (payload ++ [0xF3])) now nowUs).1
      = (bufferSerialFetchLoop
          (fetchStep { mkCleanState true with bufferSerial :=
            { (mkCleanState true).bufferSerial with numberOfPacketsToSend := 1 } }
            0x41 now nowUs).1
          (payload ++ [0xF3]) now nowUs).1 := rfl
  set st1 : RadioState := (fetchStep { mkCleanState true with bufferSerial :=
    { (mkCleanState true).bufferSerial with numberOfPacketsToSend := 1 } }
    0x41 now nowUs).1 with hst1
  have h1dv : st1.isDevice = true := rfl
  have h1cur : st1.currentPacketBufferSerial = some 0 := rfl
  have h1r : st1.streamPacketBuffer.readyForLaunch = false := rfl
  have h1g : st1.streamPacketBuffer.gotHead = true := rfl
  have h1b : st1.streamPacketBuffer.bytesIn = 1 := rfl
  have hdet := fetchLoop_det payload st1 1 now nowUs h1dv ⟨0, h1cur⟩ h1r h1g h1b (by omega)
    (by omega)
  set st2 : RadioState := (bufferSerialFetchLoop st1 payload now nowUs).1 with hst2
  obtain ⟨h2dv, ⟨q2, h2cur⟩, h2r, h2g, h2b⟩ := hdet
  have h2b32 : st2.streamPacketBuffer.bytesIn = 32 := by omega
  have happ : (bufferSerialFetchLoop st1 (payload ++ [0xF3]) now nowUs).1
      = (bufferSerialFetchLoop st2 [0xF3] now nowUs).1 := by
    rw [fetchLoop_append]
  have hsing : (bufferSerialFetchLoop st2 [0xF3] now nowUs).1
      = (fetchStep st2 0xF3 now nowUs).1 := rfl
  have htail := fetchStep_det_tail st2 now nowUs q2 h2cur h2dv h2r h2g h2b32
  have hfin : (bufferSerialFetch (mkCleanState true) (0x41 :: (payload ++ [0xF3]))
      now nowUs).1 = (fetchStep st2 0xF3 now nowUs).1 := by
    rw [hstart, hcons, happ, hsing]
  rw [hfin]
  exact ⟨htail.1, htail.2,
    fun hdelay => streamPacketDispatch_header _ now2 nowUs2 htail.1 htail.2 hdelay⟩

/-- C9, witness: the detector theorem at the all-zero payload. -/
theorem c9_stream_packet_witness :
    (bufferSerialFetch (mkCleanState true) (0x41 :: (List.replicate 31 0 ++ [0xF3]))
      0 0).1.streamPacketBuffer.readyForLaunch = true ∧
    (bufferSerialFetch (mkCleanState true) (0x41 :: (List.replicate 31 0 ++ [0xF3]))
      0 0).1.streamPacketBuffer.typeByte = 0xF3 ∧
    (hasEnoughTimePassedToLaunchStreamPacket
        (bufferSerialFetch (mkCleanState true) (0x41 :: (List.replicate 31 0 ++ [0xF3])) 0 0).1
        200 = true →
      ∃ pkt, (streamPacketDispatch
          (bufferSerialFetch (mkCleanState true) (0x41 :: (List.replicate 31 0 ++ [0xF3])) 0 0).1
          0 200).2 = [Event.radioToHost pkt] ∧
        byteIdGetIsStream (pkt.headD 0) = true ∧
        byteIdGetStreamPacketType (pkt.headD 0) = 3) :=
  c9_stream_packet (List.replicate 31 0) 0 0 0 200 (by decide)

/-- C10, code bug: with two pending stream packets, the Host's flush
emits packet 0 and then the byte-shifted tail of packet 0 — the loop
offsets into packet 0's data array by the packet index instead of
selecting packet 1 — so the output differs from draining each pending
packet's own payload as its comment ("first call would be 0th packet
then 1st") and the specification describe. -/
theorem c10_wrong_packet :
    (writeTheHostsStreamPacketBufferToThePC c10state).2 =
      writeStreamPacket (c10packet 0).data ++
        writeStreamPacket (fun j => (c10packet 0).data (1 + j)) ∧
    (writeTheHostsStreamPacketBufferToThePC c10state).2 ≠
      writeStreamPacket (c10packet 0).data ++ writeStreamPacket (c10packet 100).data := by
  decide

end OpenBCIRadios

